import Mathlib

/-!
Verification development for the sky-alert flight-tracking bot.

The definitions below are a shallow embedding of the status-reconciliation
core (src/utils/flight-parser.ts, src/utils/flight-status.ts,
src/services/flight-service.ts, src/services/flightstats-fallback.ts,
src/services/flightaware-fallback.ts, the polling worker and the status
command handler).  JavaScript strings are Lean strings; JS `trim`,
`toLowerCase` and lexicographic `<` are modelled explicitly; timestamps
are modelled as the pair of projections the code actually uses (the date
part before "T" and the `Date.parse` result, `none` for NaN); optional /
falsy-empty values are `Option`s.
-/

/-- JS whitespace test used by `String.prototype.trim` (ASCII subset). -/
def jsWhitespace (c : Char) : Bool :=
  c == ' ' || c == '\t' || c == '\n' || c == '\r' || c == '\x0b' || c == '\x0c'

/-- Model of JS `String.prototype.trim`: drop whitespace from both ends. -/
def jsTrim (s : String) : String :=
  ⟨((s.data.dropWhile jsWhitespace).reverse.dropWhile jsWhitespace).reverse⟩

/-- Model of JS `String.prototype.toLowerCase` (ASCII semantics). -/
def jsToLower (s : String) : String :=
  ⟨s.data.map Char.toLower⟩

/-- JS `<` on strings: lexicographic comparison by code unit. -/
def jsStrLtL : List Char → List Char → Bool
  | [], [] => false
  | [], _ :: _ => true
  | _ :: _, [] => false
  | a :: as, b :: bs =>
    if a.toNat < b.toNat then true
    else if b.toNat < a.toNat then false
    else jsStrLtL as bs

/-- JS `<` on strings. -/
def jsStrLt (a b : String) : Bool := jsStrLtL a.data b.data

/-- A JS ISO-timestamp string, modelled by the two projections the code
uses: the substring before "T" (`split("T")[0]`) and the result of
`Date.parse` in milliseconds (`none` for NaN). -/
structure IsoString where
  datePart : String
  parseMs : Option Int
deriving DecidableEq, Repr

/-- The ambient clock: `Date.now()` in ms together with the local calendar
date string `YYYY-MM-DD` the code derives from it. -/
structure NowEnv where
  ms : Int
  today : String
deriving DecidableEq, Repr

/-- src/utils/flight-parser.ts line 140: the low-signal status set. -/
def LOW_SIGNAL_STATUSES : List String :=
  ["scheduled", "unknown", "n/a", "na", "unavailable"]

/-- src/utils/flight-parser.ts line 141: the terminal status set. -/
def TERMINAL_STATUSES : List String :=
  ["landed", "cancelled", "canceled", "arrived", "completed"]

/-- src/utils/flight-parser.ts line 142: 6 hours in milliseconds. -/
def GATE_INFO_WINDOW_MS : Int := 6 * 60 * 60 * 1000

/-- src/utils/flight-parser.ts lines 143-149: the STATUS_ALIASES map. -/
def STATUS_ALIASES : List (String × String) :=
  [("canceled", "cancelled"), ("in-air", "departed"), ("in_air", "departed"),
   ("enroute", "departed"), ("en-route", "departed")]

/-- `STATUS_ALIASES[normalized] ?? normalized`. -/
def aliasLookup (t : String) : String :=
  match STATUS_ALIASES.find? (fun p => p.1 == t) with
  | some p => p.2
  | none => t

/-- src/utils/flight-parser.ts lines 151-162 `normalizeFlightStatus`:
trim, lowercase, map aliases; empty/absent input yields absent.
(The variant in src/utils/flight-status.ts is identical except that it
does not apply STATUS_ALIASES.) -/
def normalizeFlightStatus : Option String → Option String
  | none => none
  | some s =>
    let normalized := jsToLower (jsTrim s)
    if normalized = "" then none else some (aliasLookup normalized)

/-- src/utils/flight-parser.ts lines 252-259 `isLowSignalStatus`. -/
def isLowSignalStatus (status : Option String) : Bool :=
  match normalizeFlightStatus status with
  | none => true
  | some n => LOW_SIGNAL_STATUSES.contains n

/-- src/utils/flight-parser.ts lines 261-263 `shouldUseStatusFallback`:
`(!delayMinutes || delayMinutes <= 0) && isLowSignalStatus(status)`. -/
def shouldUseStatusFallback (status : Option String) (delayMinutes : Option Int) : Bool :=
  (match delayMinutes with
   | none => true
   | some d => decide (d ≤ 0)) && isLowSignalStatus status

/-- src/utils/flight-parser.ts lines 265-272 `isTerminalFlightStatus`. -/
def isTerminalFlightStatus (status : Option String) : Bool :=
  match normalizeFlightStatus status with
  | none => false
  | some n => TERMINAL_STATUSES.contains n

/-- src/utils/flight-parser.ts lines 274-302 `preferKnownStatus` (identical
in src/utils/flight-status.ts lines 35-63). -/
def preferKnownStatus (currentStatus candidateStatus : Option String) : Option String :=
  let normalizedCurrent := normalizeFlightStatus currentStatus
  let normalizedCandidate := normalizeFlightStatus candidateStatus
  if normalizedCandidate.isNone then normalizedCurrent
  else if normalizedCurrent.isSome && !isLowSignalStatus normalizedCurrent &&
      isLowSignalStatus normalizedCandidate then normalizedCurrent
  else if normalizedCurrent.isSome && isLowSignalStatus normalizedCurrent &&
      isLowSignalStatus normalizedCandidate then normalizedCurrent
  else normalizedCandidate

/-- src/utils/flight-parser.ts line 176: the progress-like status set. -/
def progressLikeStatuses : List String :=
  ["active", "departed", "landed", "arrived", "completed"]

/-- Guard 1 of `normalizeOperationalStatus`: the date part of the
provider's scheduled departure precedes the tracked flight date. -/
def opGuardSourceDate (scheduledDepartureIso : Option IsoString) (flightDate : Option String) : Bool :=
  match scheduledDepartureIso, flightDate with
  | some iso, some fd => jsStrLt iso.datePart fd
  | _, _ => false

/-- Guard 2 of `normalizeOperationalStatus`: the provider record's own
flight date precedes the tracked flight date. -/
def opGuardFlightDate (sourceFlightDate : Option String) (flightDate : Option String) : Bool :=
  match sourceFlightDate, flightDate with
  | some sfd, some fd => jsStrLt sfd fd
  | _, _ => false

/-- Guard 3 of `normalizeOperationalStatus`: the tracked flight date is
after today. -/
def opGuardFutureDay (flightDate : Option String) (now : NowEnv) : Bool :=
  match flightDate with
  | some fd => jsStrLt now.today fd
  | none => false

/-- Guard 4 of `normalizeOperationalStatus`: the scheduled departure
parses and is strictly after now. -/
def opGuardFutureDeparture (scheduledDepartureIso : Option IsoString) (now : NowEnv) : Bool :=
  match scheduledDepartureIso with
  | some iso =>
    match iso.parseMs with
    | some ms => decide (now.ms < ms)
    | none => false
  | none => false

/-- src/utils/flight-parser.ts lines 164-215 `normalizeOperationalStatus`:
progress-like statuses are forced back to "scheduled" when any of the four
temporal-plausibility guards fires. -/
def normalizeOperationalStatus (status : Option String) (scheduledDepartureIso : Option IsoString)
    (flightDate : Option String) (now : NowEnv) (sourceFlightDate : Option String) :
    Option String :=
  match normalizeFlightStatus status with
  | none => none
  | some normalized =>
    if opGuardSourceDate scheduledDepartureIso flightDate &&
        progressLikeStatuses.contains normalized then some "scheduled"
    else if opGuardFlightDate sourceFlightDate flightDate &&
        progressLikeStatuses.contains normalized then some "scheduled"
    else if opGuardFutureDay flightDate now &&
        progressLikeStatuses.contains normalized then some "scheduled"
    else if opGuardFutureDeparture scheduledDepartureIso now &&
        progressLikeStatuses.contains normalized then some "scheduled"
    else some normalized

/-- src/utils/flight-parser.ts lines 217-250 `shouldUseDepartureStandInfo`. -/
def shouldUseDepartureStandInfo (scheduledDepartureIso : Option IsoString)
    (flightDate : Option String) (status : Option String) (now : NowEnv) : Bool :=
  if normalizeFlightStatus status = some "scheduled" then false
  else if opGuardFutureDay flightDate now then false
  else
    match scheduledDepartureIso with
    | none => true
    | some iso =>
      match iso.parseMs with
      | none => true
      | some ms => decide (ms - now.ms ≤ GATE_INFO_WINDOW_MS)

/-- JS `Math.round(n / d)` for integer `n` and positive integer `d`:
`Math.round x = floor (x + 1/2)`. -/
def jsRoundDiv (n : Int) (d : Int) : Int := Int.fdiv (2 * n + d) (2 * d)

/-- The `departure`/`arrival` leg of an Aviationstack flight record, with
the fields the core reads.  Falsy empty strings are modelled as `none`. -/
structure ApiLeg where
  scheduled : Option IsoString
  estimated : Option IsoString
  delay : Option Int
  gate : Option String
  terminal : Option String
deriving DecidableEq, Repr

/-- An Aviationstack flight record (primary provider), restricted to the
fields the reconciliation core reads.  `flightNumber` is `flight.number`
(`none` models the falsy empty string). -/
structure ApiFlight where
  flight_status : Option String
  flight_date : Option String
  departure : ApiLeg
  flightNumber : Option String
deriving DecidableEq, Repr

/-- src/services/flight-service.ts lines 143-160 `getDelayMinutes`:
prefer the provider's positive explicit departure delay, else the rounded
positive (estimated - scheduled) departure difference in minutes. -/
def getDelayMinutes (apiFlight : ApiFlight) : Option Int :=
  if (match apiFlight.departure.delay with
      | some d => decide (0 < d)
      | none => false) then apiFlight.departure.delay
  else
    match apiFlight.departure.estimated, apiFlight.departure.scheduled with
    | some est, some sched =>
      match est.parseMs, sched.parseMs with
      | some e, some s =>
        let diffMinutes := jsRoundDiv (e - s) 60000
        if 0 < diffMinutes then some diffMinutes else none
      | _, _ => none
    | _, _ => none

/-- src/services/flightstats-fallback.ts lines 98-100: the departure and
arrival delay fields of a FlightStats record (`?? 0` handled at use). -/
structure FlightStatsDelays where
  departure : Option Int
  arrival : Option Int
deriving DecidableEq, Repr

/-- src/services/flightstats-fallback.ts lines 98-104: `delayMinutes` is
the max of the departure and arrival delay minutes (missing fields count
as 0), reported only when positive. -/
def fsDelayMinutes (delays : FlightStatsDelays) : Option Int :=
  let departureDelay := delays.departure.getD 0
  let arrivalDelay := delays.arrival.getD 0
  let delayMinutes := max departureDelay arrivalDelay
  if 0 < delayMinutes then some delayMinutes else none

/-- A `scheduled`/`estimated` epoch-seconds pair of a FlightAware flight
(src/services/flightaware-fallback.ts lines 161-164). -/
structure FlightAwareTimes where
  scheduled : Option Int
  estimated : Option Int
deriving DecidableEq, Repr

/-- src/services/flightaware-fallback.ts lines 201-208 `getDelayFromTimes`:
`undefined` unless both fields are present and truthy; then the rounded
(estimated - scheduled) difference in minutes, only if positive. -/
def getDelayFromTimes (times : Option FlightAwareTimes) : Option Int :=
  match times with
  | none => none
  | some t =>
    match t.estimated, t.scheduled with
    | some e, some s =>
      if e = 0 || s = 0 then none
      else
        let minutes := jsRoundDiv (e - s) 60
        if 0 < minutes then some minutes else none
    | _, _ => none

/-- The four time pairs of a FlightAware flight record
(src/services/flightaware-fallback.ts lines 166-181, restricted to the
fields `getDelayMinutes` reads). -/
structure FlightAwareFlightRec where
  gateDepartureTimes : Option FlightAwareTimes
  takeoffTimes : Option FlightAwareTimes
  landingTimes : Option FlightAwareTimes
  gateArrivalTimes : Option FlightAwareTimes
deriving DecidableEq, Repr

/-- The candidate per-leg delays of a FlightAware record, in source order. -/
def faDelayCandidates (flight : FlightAwareFlightRec) : List Int :=
  [getDelayFromTimes flight.gateDepartureTimes,
   getDelayFromTimes flight.takeoffTimes,
   getDelayFromTimes flight.landingTimes,
   getDelayFromTimes flight.gateArrivalTimes].filterMap id

/-- src/services/flightaware-fallback.ts lines 210-223 `getDelayMinutes`:
`Math.max` over the defined per-leg delays, `undefined` when none. -/
def faGetDelayMinutes (flight : FlightAwareFlightRec) : Option Int :=
  match faDelayCandidates flight with
  | [] => none
  | h :: t => some (t.foldl max h)

/-- A stored flight row (the `flights` table), restricted to the fields
the reconciliation core reads and writes. -/
structure StoredFlight where
  flightNumber : String
  flightDate : String
  origin : String
  destination : String
  currentStatus : Option String
  gate : Option String
  terminal : Option String
  delayMinutes : Option Int
  scheduledDeparture : IsoString
  lastPolledAt : Option Int
  isActive : Bool
deriving DecidableEq, Repr

/-- The normalized record a fallback provider hands back to the poller
(status, delay, departure stand info), as consumed by the polling worker. -/
structure FallbackRecord where
  status : Option String
  delayMinutes : Option Int
  departureGate : Option String
  departureTerminal : Option String
deriving DecidableEq, Repr

/-- What each fallback provider would return if queried: `none` models a
lookup that fails or yields nothing. -/
structure ProviderEnv where
  flightStats : Option FallbackRecord
  flightAware : Option FallbackRecord
deriving DecidableEq, Repr

/-- The two ranked fallback providers. -/
inductive FallbackProvider
  | flightStats
  | flightAware
deriving DecidableEq, Repr

/-- Polling worker `parseCarrierAndNumber` (regex
`^([A-Z]{2,3})(\d{1,4})$`): a 2-3 letter carrier code followed by a 1-4
digit flight number covering the whole string. -/
def parseCarrierAndNumber (flightCode : String) : Option (String × String) :=
  let letters := flightCode.data.takeWhile (fun c => 'A' ≤ c && c ≤ 'Z')
  let rest := flightCode.data.dropWhile (fun c => 'A' ≤ c && c ≤ 'Z')
  if 2 ≤ letters.length && letters.length ≤ 3 && 1 ≤ rest.length && rest.length ≤ 4 &&
      rest.all (fun c => '0' ≤ c && c ≤ '9') then
    some (⟨letters⟩, ⟨rest⟩)
  else none

/-- Polling worker: `apiFlight.flight.number || parsedCode.number || ""`,
the flight number under which FlightStats is queried (`none` = empty). -/
def flightNoOf (flight : StoredFlight) (api : ApiFlight) : Option String :=
  match api.flightNumber with
  | some n => some n
  | none => (parseCarrierAndNumber flight.flightNumber).map Prod.snd

/-- The working state threaded through the merge steps of `pollFlight`
(status, delay, stand-info visibility, pending gate/terminal). -/
structure MergeAcc where
  status : Option String
  delay : Option Int
  stand : Bool
  gate : Option String
  terminal : Option String
deriving DecidableEq, Repr

/-- The primary candidate status: `normalizeOperationalStatus(apiFlight.
flight_status, apiFlight.departure.scheduled, flight.flightDate, nowMs,
apiFlight.flight_date)` (polling worker, lines 122-131). -/
def candOf (flight : StoredFlight) (api : ApiFlight) (now : NowEnv) : Option String :=
  normalizeOperationalStatus api.flight_status api.departure.scheduled
    (some flight.flightDate) now api.flight_date

/-- The merged primary status: `preferKnownStatus(flight.currentStatus,
<primary candidate>)`. -/
def next0Of (flight : StoredFlight) (api : ApiFlight) (now : NowEnv) : Option String :=
  preferKnownStatus flight.currentStatus (candOf flight api now)

/-- The pre-fallback working state of `pollFlight` (lines 120-145). -/
def acc0Of (flight : StoredFlight) (api : ApiFlight) (now : NowEnv) : MergeAcc :=
  let next0 := next0Of flight api now
  let stand0 := shouldUseDepartureStandInfo api.departure.scheduled (some flight.flightDate)
    next0 now
  { status := next0
    delay := getDelayMinutes api
    stand := stand0
    gate := if stand0 && api.departure.gate.isSome then api.departure.gate else flight.gate
    terminal := if stand0 then api.departure.terminal else flight.terminal }

/-- Merging one fallback record into the working state (polling worker,
lines 156-184 for FlightStats and 193-218 for FlightAware, which are
textually the same steps): take a positive delay; merge the status via
`preferKnownStatus` of its operational normalization only while the
low-signal condition still holds; recompute stand-info visibility; copy
gate/terminal only when stand info applies. -/
def applyFallbackRecord (acc : MergeAcc) (rec : FallbackRecord) (flight : StoredFlight)
    (api : ApiFlight) (now : NowEnv) : MergeAcc :=
  let delay1 := if (match rec.delayMinutes with
      | some d => decide (0 < d)
      | none => false) then rec.delayMinutes else acc.delay
  let merged :=
    if rec.status.isSome && shouldUseStatusFallback acc.status delay1 then
      let s := preferKnownStatus acc.status
        (normalizeOperationalStatus rec.status (some flight.scheduledDeparture)
          (some flight.flightDate) now none)
      (s, shouldUseDepartureStandInfo api.departure.scheduled (some flight.flightDate) s now)
    else (acc.status, acc.stand)
  { status := merged.1
    delay := delay1
    stand := merged.2
    gate := if merged.2 && rec.departureGate.isSome then rec.departureGate else acc.gate
    terminal := if merged.2 && rec.departureTerminal.isSome then rec.departureTerminal
      else acc.terminal }

/-- The FlightStats response seen by `pollFlight`: queried only when a
flight number is available (`flightNo ? await getFlightStatsFallback(...)
: undefined`). -/
def fsResultOf (flight : StoredFlight) (api : ApiFlight) (env : ProviderEnv) :
    Option FallbackRecord :=
  if (flightNoOf flight api).isSome then env.flightStats else none

/-- The working state after the FlightStats step. -/
def accAfterFSOf (flight : StoredFlight) (api : ApiFlight) (env : ProviderEnv) (now : NowEnv) :
    MergeAcc :=
  match fsResultOf flight api env with
  | some rec => applyFallbackRecord (acc0Of flight api now) rec flight api now
  | none => acc0Of flight api now

/-- The FlightAware query condition: `!flightStatsFallbackUsed ||
shouldUseStatusFallback(nextStatus, nextDelayMinutes)` (line 186). -/
def faCondOf (flight : StoredFlight) (api : ApiFlight) (env : ProviderEnv) (now : NowEnv) :
    Bool :=
  !(fsResultOf flight api env).isSome ||
    shouldUseStatusFallback (accAfterFSOf flight api env now).status
      (accAfterFSOf flight api env now).delay

/-- The working state after both fallback steps. -/
def fallbackAccOf (flight : StoredFlight) (api : ApiFlight) (env : ProviderEnv) (now : NowEnv) :
    MergeAcc :=
  if faCondOf flight api env now then
    match env.flightAware with
    | some rec => applyFallbackRecord (accAfterFSOf flight api env now) rec flight api now
    | none => accAfterFSOf flight api env now
  else accAfterFSOf flight api env now

/-- The providers consulted by the fallback block, in query order:
FlightStats is queried iff a flight number is available, FlightAware iff
its query condition holds. -/
def consultedOf (flight : StoredFlight) (api : ApiFlight) (env : ProviderEnv) (now : NowEnv) :
    List FallbackProvider :=
  (if (flightNoOf flight api).isSome then [FallbackProvider.flightStats] else []) ++
    (if faCondOf flight api env now then [FallbackProvider.flightAware] else [])

/-- The final canonical status of a poll: `normalizeOperationalStatus(
preferKnownStatus(flight.currentStatus, nextStatus), flight.
scheduledDeparture, flight.flightDate, nowMs)` (lines 222-228). -/
def finalNormOf (flight : StoredFlight) (acc : MergeAcc) (now : NowEnv) : Option String :=
  normalizeOperationalStatus (preferKnownStatus flight.currentStatus acc.status)
    (some flight.scheduledDeparture) (some flight.flightDate) now none

/-- The outcome of one `pollFlight` reconciliation pass. -/
structure PollComputation where
  nextStatus : Option String
  nextDelayMinutes : Option Int
  nextGate : Option String
  nextTerminal : Option String
  normalizedFinalStatus : Option String
  insertsChange : Bool
  isActive : Bool
  consulted : List FallbackProvider
deriving DecidableEq, Repr

/-- Packaging the final fields of `pollFlight` (lines 222-244, 292-302):
a StatusChangeRecord is inserted iff the stored status differs from the
final normalized status and the latter is present; the persisted active
flag is the negation of terminality of the final status. -/
def pollFinish (flight : StoredFlight) (acc : MergeAcc) (consulted : List FallbackProvider)
    (now : NowEnv) : PollComputation :=
  { nextStatus := acc.status
    nextDelayMinutes := acc.delay
    nextGate := acc.gate
    nextTerminal := acc.terminal
    normalizedFinalStatus := finalNormOf flight acc now
    insertsChange := decide (flight.currentStatus ≠ finalNormOf flight acc now) &&
      (finalNormOf flight acc now).isSome
    isActive := !isTerminalFlightStatus (finalNormOf flight acc now)
    consulted := consulted }

/-- The polling worker's `pollFlight` reconciliation pass (first version of
the worker in the repository snapshot, lines 99-308), as a pure function of
the stored row, the selected primary record, the fallback responses and
the clock.  The fallback block runs only when the merged primary status is
low-signal with no positive delay. -/
def pollFlightCompute (flight : StoredFlight) (api : ApiFlight) (env : ProviderEnv)
    (now : NowEnv) : PollComputation :=
  if shouldUseStatusFallback (next0Of flight api now) (getDelayMinutes api) then
    pollFinish flight (fallbackAccOf flight api env now) (consultedOf flight api env now) now
  else pollFinish flight (acc0Of flight api now) [] now

/-- The `db.update(flights).set({...})` of `pollFlight` (lines 292-302).
Drizzle skips `undefined` values in `set`, so absent fields keep their
stored value; `isActive` is always written. -/
def pollPersist (flight : StoredFlight) (r : PollComputation) (pollTime : Int) : StoredFlight :=
  { flight with
    currentStatus := if r.normalizedFinalStatus.isSome then r.normalizedFinalStatus
      else flight.currentStatus
    gate := if r.nextGate.isSome then r.nextGate else flight.gate
    terminal := if r.nextTerminal.isSome then r.nextTerminal else flight.terminal
    delayMinutes := if r.nextDelayMinutes.isSome then r.nextDelayMinutes else flight.delayMinutes
    isActive := r.isActive
    lastPolledAt := some pollTime }

/-- Polling worker lines 19-21: poll interval tiers in ms. -/
def POLL_INTERVAL_FAR : Int := 15 * 60 * 1000

/-- Polling worker: the 5-minute tier. -/
def POLL_INTERVAL_NEAR : Int := 5 * 60 * 1000

/-- Polling worker: the 1-minute tier. -/
def POLL_INTERVAL_IMMINENT : Int := 1 * 60 * 1000

/-- Polling worker line 22: the 6-hour lookahead horizon. -/
def HOURS_BEFORE_START_POLLING : Int := 6

/-- Polling worker lines 57-63 `getPollInterval`: tier by hours until
departure.  An unparseable departure gives NaN comparisons, both false,
hence the far tier. -/
def getPollInterval (scheduledDepartureMs : Option Int) (now : NowEnv) : Int :=
  match scheduledDepartureMs with
  | none => POLL_INTERVAL_FAR
  | some ms =>
    if ms - now.ms ≤ 60 * 60 * 1000 then POLL_INTERVAL_IMMINENT
    else if ms - now.ms ≤ 3 * 60 * 60 * 1000 then POLL_INTERVAL_NEAR
    else POLL_INTERVAL_FAR

/-- What the scheduler loop does with one active flight. -/
inductive PollDecision
  | deactivate
  | skipFlight
  | poll
deriving DecidableEq, Repr

/-- Polling worker `pollFlights` per-flight selection (lines 72-92), for a
flight in the `isActive = true` selection: a terminal-status flight is
deactivated and never polled; otherwise skip flights outside the 6-hour
horizon or polled more recently than their interval; else poll.  An
unparseable scheduled departure makes the horizon comparison false (NaN). -/
def pollFlightsDecision (flight : StoredFlight) (now : NowEnv) : PollDecision :=
  if isTerminalFlightStatus flight.currentStatus then PollDecision.deactivate
  else if (match flight.scheduledDeparture.parseMs with
      | some ms => decide (now.ms + HOURS_BEFORE_START_POLLING * 60 * 60 * 1000 < ms)
      | none => false) then PollDecision.skipFlight
  else
    let lastPolled := (flight.lastPolledAt.getD 0) * 1000
    if now.ms - lastPolled < getPollInterval flight.scheduledDeparture.parseMs now then
      PollDecision.skipFlight
    else PollDecision.poll

/-- src/services/flight-service.ts lines 7-18 `FlightInput`. -/
structure FlightInput where
  flightNumber : String
  flightDate : String
  origin : String
  destination : String
  scheduledDeparture : IsoString
  currentStatus : Option String
  gate : Option String
  terminal : Option String
  delayMinutes : Option Int
deriving DecidableEq, Repr

/-- src/services/flight-service.ts lines 52-69 `updateFlightById`: rewrite
the row from the input and set `isActive: true` unconditionally.  Drizzle
skips `undefined` values in `set`, so absent optional fields keep their
stored value. -/
def updateFlightById (flight : StoredFlight) (input : FlightInput) : StoredFlight :=
  { flight with
    flightNumber := input.flightNumber
    flightDate := input.flightDate
    origin := input.origin
    destination := input.destination
    scheduledDeparture := input.scheduledDeparture
    currentStatus := if input.currentStatus.isSome then input.currentStatus
      else flight.currentStatus
    gate := if input.gate.isSome then input.gate else flight.gate
    terminal := if input.terminal.isSome then input.terminal else flight.terminal
    delayMinutes := if input.delayMinutes.isSome then input.delayMinutes
      else flight.delayMinutes
    isActive := true }

/-- The fields the status command handler writes back after a live refresh. -/
structure RefreshWrite where
  currentStatus : Option String
  isActive : Bool
  insertsChange : Bool
deriving DecidableEq, Repr

/-- Status command handler, refresh persist step (lines 437-463 of the
handler): `finalStatus = normalizeOperationalStatus(preferKnownStatus(
oldStatus, newStatus), flight.scheduledDeparture, flight.flightDate)`; a
StatusChangeRecord is inserted iff the status changed and is present; the
written active flag is the negation of terminality; an absent final
status leaves the stored status untouched (drizzle skips `undefined`). -/
def statusRefreshPersist (oldStatus : Option String) (newStatus : Option String)
    (scheduledDeparture : IsoString) (flightDate : String) (now : NowEnv) : RefreshWrite :=
  let finalStatus := normalizeOperationalStatus (preferKnownStatus oldStatus newStatus)
    (some scheduledDeparture) (some flightDate) now none
  { currentStatus := if finalStatus.isSome then finalStatus else oldStatus
    isActive := !isTerminalFlightStatus finalStatus
    insertsChange := decide (oldStatus ≠ finalStatus) && finalStatus.isSome }

/-- api-budget: the monthly quota (`FREE_TIER_LIMIT = 100`). -/
def FREE_TIER_LIMIT : Nat := 100

/-- api-budget: the reserve withheld from normal callers
(`BUDGET_RESERVE = 5`). -/
def BUDGET_RESERVE : Nat := 5

/-- api-budget `getUsage()`: `remaining = Math.max(0, limit - used)`
(truncated subtraction on `Nat` models the `Math.max(0, ...)`). -/
structure Usage where
  used : Nat
  limit : Nat
  remaining : Nat
deriving DecidableEq, Repr

/-- api-budget `getUsage()` for the current month's request count. -/
def getUsage (requestCount : Nat) : Usage :=
  { used := requestCount
    limit := FREE_TIER_LIMIT
    remaining := FREE_TIER_LIMIT - requestCount }

/-- Modelled from the spec: the repository's `src/services/api-budget.ts`
(the variant taking an `{ allowReserve }` option, imported by
`aviationstack.ts`, the status handler and the polling worker) is not
present in the source snapshot — only its callers and an older
reserve-only `canMakeRequest` are.  Per the spec, `canMakeRequest`
returns true iff `remaining > reserve` normally, or `remaining > 0` when
reserve use is allowed. -/
def canMakeRequest (requestCount : Nat) (allowReserve : Bool) : Bool :=
  let remaining := (getUsage requestCount).remaining
  if allowReserve then decide (0 < remaining) else decide (BUDGET_RESERVE < remaining)

/-- api-budget `isPollingEnabled()`: polling only while remaining budget
exceeds 30% of the quota. -/
def isPollingEnabled (requestCount : Nat) : Bool :=
  decide (FREE_TIER_LIMIT * 3 < (getUsage requestCount).remaining * 10)

/-- A fixed clock for the concrete scenarios: noon-ish on 2026-03-01. -/
def exNow : NowEnv := ⟨1000000000, "2026-03-01"⟩

/-- A scheduled departure one hour after `exNow`, on the tracked date. -/
def exDepFuture : IsoString := ⟨"2026-03-01", some 1003600000⟩

/-- A scheduled departure shortly before `exNow`, on the tracked date. -/
def exDepPast : IsoString := ⟨"2026-03-01", some 999000000⟩

/-- Stored flight for the repeated-reconciliation scenario: status
"departed" while the stored scheduled departure is still an hour away. -/
def exFlight1 : StoredFlight :=
  { flightNumber := "AA123", flightDate := "2026-03-01", origin := "JFK", destination := "LAX"
    currentStatus := some "departed", gate := none, terminal := none, delayMinutes := none
    scheduledDeparture := exDepFuture, lastPolledAt := some 0, isActive := true }

/-- Primary provider record for the repeated-reconciliation scenario:
low-signal "scheduled", no delay data. -/
def exApi1 : ApiFlight :=
  { flight_status := some "scheduled", flight_date := some "2026-03-01"
    departure := { scheduled := some exDepFuture, estimated := none, delay := none
                   gate := none, terminal := none }
    flightNumber := some "123" }

/-- Fallback responses for the repeated-reconciliation scenario:
FlightStats reports "cancelled" with no delay, FlightAware nothing. -/
def exEnv1 : ProviderEnv :=
  { flightStats := some { status := some "cancelled", delayMinutes := none
                          departureGate := none, departureTerminal := none }
    flightAware := none }

/-- Stored flight for the fallback-free scenario: "departed", departure
already behind `exNow`. -/
def exFlight2 : StoredFlight :=
  { exFlight1 with currentStatus := some "departed", scheduledDeparture := exDepPast }

/-- Primary provider record for the fallback-free scenario: "landed", a
high-signal answer. -/
def exApi2 : ApiFlight :=
  { exApi1 with
    flight_status := some "landed"
    departure := { scheduled := some exDepPast, estimated := none, delay := none
                   gate := none, terminal := none } }

/-- Stored flight whose code (`"123AB"`) does not parse as carrier plus
number. -/
def exFlight3 : StoredFlight :=
  { exFlight1 with flightNumber := "123AB", currentStatus := some "scheduled" }

/-- Primary provider record with an empty `flight.number`. -/
def exApi3 : ApiFlight := { exApi1 with flightNumber := none }

/-- A `FlightInput` carrying a terminal status, as produced by the track
flow for a flight the provider already reports as landed. -/
def exLandedInput : FlightInput :=
  { flightNumber := "AA123", flightDate := "2026-03-01", origin := "JFK", destination := "LAX"
    scheduledDeparture := exDepPast, currentStatus := some "landed", gate := none
    terminal := none, delayMinutes := none }

/-- First reconciliation pass of the repeated-reconciliation scenario. -/
def exRun1 : PollComputation := pollFlightCompute exFlight1 exApi1 exEnv1 exNow

/-- The stored row after persisting the first pass. -/
def exPersist1 : StoredFlight := pollPersist exFlight1 exRun1 5

/-- Second reconciliation pass, same provider data, same clock. -/
def exRun2 : PollComputation := pollFlightCompute exPersist1 exApi1 exEnv1 exNow

/-- First pass of the fallback-free scenario. -/
def exRunB1 : PollComputation := pollFlightCompute exFlight2 exApi2 exEnv1 exNow

/-- The stored row after persisting the fallback-free first pass. -/
def exPersistB1 : StoredFlight := pollPersist exFlight2 exRunB1 5

/-- Second pass of the fallback-free scenario. -/
def exRunB2 : PollComputation := pollFlightCompute exPersistB1 exApi2 exEnv1 exNow

theorem char_toNat_ofNat_valid {n : Nat} (h : n < 55296) : (Char.ofNat n).toNat = n := by
  have hv : n.isValidChar := Or.inl h
  rw [Char.ofNat, dif_pos hv]
  rfl

theorem char_toLower_toLower (c : Char) : c.toLower.toLower = c.toLower := by
  by_cases h : c.toNat ≥ 65 ∧ c.toNat ≤ 90
  · have e1 : c.toLower = Char.ofNat (c.toNat + 32) := by
      rw [Char.toLower, if_pos h]
    have h32 : (Char.ofNat (c.toNat + 32)).toNat = c.toNat + 32 :=
      char_toNat_ofNat_valid (by omega)
    rw [e1, Char.toLower, if_neg (by rw [h32]; omega)]
  · have e1 : c.toLower = c := by rw [Char.toLower, if_neg h]
    rw [e1, e1]

theorem jsWhitespace_false_of_ge (c : Char) (h1 : 33 ≤ c.toNat) : jsWhitespace c = false := by
  unfold jsWhitespace
  simp only [Bool.or_eq_false_iff]
  refine ⟨⟨⟨⟨⟨?_, ?_⟩, ?_⟩, ?_⟩, ?_⟩, ?_⟩ <;>
    (rw [beq_eq_false_iff_ne]; rintro rfl; revert h1; decide)

theorem jsWhitespace_toLower (c : Char) : jsWhitespace c.toLower = jsWhitespace c := by
  by_cases h : c.toNat ≥ 65 ∧ c.toNat ≤ 90
  · have e1 : c.toLower = Char.ofNat (c.toNat + 32) := by
      rw [Char.toLower, if_pos h]
    have h32 : (Char.ofNat (c.toNat + 32)).toNat = c.toNat + 32 :=
      char_toNat_ofNat_valid (by omega)
    rw [e1, jsWhitespace_false_of_ge _ (by rw [h32]; omega),
      jsWhitespace_false_of_ge _ (by omega)]
  · have e1 : c.toLower = c := by rw [Char.toLower, if_neg h]
    rw [e1]

theorem map_toLower_fix {l : List Char} (h : ∀ c ∈ l, c.toLower = c) :
    l.map Char.toLower = l := by
  induction l with
  | nil => rfl
  | cons a t ih =>
    simp only [List.map_cons, h a (List.mem_cons_self a t)]
    rw [ih (fun c hc => h c (List.mem_cons_of_mem a hc))]

theorem jsToLower_idem (s : String) : jsToLower (jsToLower s) = jsToLower s := by
  unfold jsToLower
  congr 1
  apply map_toLower_fix
  intro c hc
  rcases List.mem_map.mp hc with ⟨a, _, rfl⟩
  exact char_toLower_toLower a

theorem dropWhile_head_false {p : Char → Bool} {l : List Char} (h : l.dropWhile p = l) :
    ∀ a t, l = a :: t → p a = false := by
  intro a t he
  subst he
  by_contra hcon
  have hpa : p a = true := by
    cases hpa2 : p a
    · exact absurd hpa2 hcon
    · rfl
  rw [List.dropWhile_cons_of_pos hpa] at h
  have hlen := congrArg List.length h
  have hle : (t.dropWhile p).length ≤ t.length := (List.dropWhile_sublist (l := t) p).length_le
  simp only [List.length_cons] at hlen
  omega

theorem dropWhile_rev_dropWhile {p : Char → Bool} {l : List Char} (h : l.dropWhile p = l) :
    ((l.reverse.dropWhile p).reverse).dropWhile p = (l.reverse.dropWhile p).reverse := by
  have hdec : (l.reverse.dropWhile p).reverse ++ (l.reverse.takeWhile p).reverse = l := by
    rw [← List.reverse_append, List.takeWhile_append_dropWhile, List.reverse_reverse]
  cases htt : (l.reverse.dropWhile p).reverse with
  | nil => rfl
  | cons a t =>
    have hl : l = a :: (t ++ (l.reverse.takeWhile p).reverse) := by
      conv_lhs => rw [← hdec, htt]
      rw [List.cons_append]
    have hpa : p a = false := dropWhile_head_false h _ _ hl
    rw [List.dropWhile_cons_of_neg (by simp [hpa])]

theorem jsTrim_idem (s : String) : jsTrim (jsTrim s) = jsTrim s := by
  unfold jsTrim
  congr 1
  set d := s.data.dropWhile jsWhitespace with hd
  set t := (d.reverse.dropWhile jsWhitespace).reverse with ht
  have h1 : t.dropWhile jsWhitespace = t :=
    dropWhile_rev_dropWhile (List.dropWhile_idempotent jsWhitespace s.data)
  rw [h1]
  have h2 : t.reverse.dropWhile jsWhitespace = t.reverse := by
    rw [ht, List.reverse_reverse]
    exact List.dropWhile_idempotent _ _
  rw [h2, ht, List.reverse_reverse]

theorem jsTrim_toLower_comm (s : String) : jsTrim (jsToLower s) = jsToLower (jsTrim s) := by
  unfold jsTrim jsToLower
  congr 1
  have hpf : (jsWhitespace ∘ Char.toLower) = jsWhitespace := by
    funext c
    exact jsWhitespace_toLower c
  rw [List.dropWhile_map, hpf, ← List.map_reverse, List.dropWhile_map, hpf, List.map_reverse]

theorem normStr_idem (s : String) :
    jsToLower (jsTrim (jsToLower (jsTrim s))) = jsToLower (jsTrim s) := by
  rw [jsTrim_toLower_comm, jsTrim_idem, jsToLower_idem]

theorem normalizeFlightStatus_fix {s y : String}
    (h : normalizeFlightStatus (some s) = some y) :
    normalizeFlightStatus (some y) = some y := by
  unfold normalizeFlightStatus at h ⊢
  simp only at h ⊢
  by_cases he : jsToLower (jsTrim s) = ""
  · rw [if_pos he] at h
    exact absurd h (by simp)
  · rw [if_neg he] at h
    have hy : y = aliasLookup (jsToLower (jsTrim s)) := by
      injection h with h2
      exact h2.symm
    cases hfind : STATUS_ALIASES.find? (fun p => p.1 == jsToLower (jsTrim s)) with
    | some pr =>
      have hval : aliasLookup (jsToLower (jsTrim s)) = pr.2 := by
        unfold aliasLookup
        rw [hfind]
      have hmem : pr ∈ STATUS_ALIASES := List.mem_of_find?_eq_some hfind
      have hy2 : y = pr.2 := by rw [hy, hval]
      simp only [STATUS_ALIASES, List.mem_cons] at hmem
      rcases hmem with h5 | h5 | h5 | h5 | h5 | h5
      rotate_left
      rotate_left
      rotate_left
      rotate_left
      rotate_left
      · exact absurd h5 (List.not_mem_nil pr)
      all_goals (subst h5; simp only at hy2; subst hy2; decide)
    | none =>
      have hval : aliasLookup (jsToLower (jsTrim s)) = jsToLower (jsTrim s) := by
        unfold aliasLookup
        rw [hfind]
      have hy2 : y = jsToLower (jsTrim s) := by rw [hy, hval]
      subst hy2
      rw [normStr_idem, if_neg he]
      unfold aliasLookup
      rw [hfind]

theorem normalizeFlightStatus_norm (s : Option String) :
    normalizeFlightStatus (normalizeFlightStatus s) = normalizeFlightStatus s := by
  cases s with
  | none => rfl
  | some v =>
    cases h : normalizeFlightStatus (some v) with
    | none => rfl
    | some y => exact normalizeFlightStatus_fix h

theorem isLowSignalStatus_norm (s : Option String) :
    isLowSignalStatus (normalizeFlightStatus s) = isLowSignalStatus s := by
  unfold isLowSignalStatus
  rw [normalizeFlightStatus_norm]

theorem isTerminalFlightStatus_norm (s : Option String) :
    isTerminalFlightStatus (normalizeFlightStatus s) = isTerminalFlightStatus s := by
  unfold isTerminalFlightStatus
  rw [normalizeFlightStatus_norm]

theorem preferKnown_norm (a b : Option String) :
    normalizeFlightStatus (preferKnownStatus a b) = preferKnownStatus a b := by
  unfold preferKnownStatus
  simp only
  split
  · exact normalizeFlightStatus_norm a
  · split
    · exact normalizeFlightStatus_norm a
    · split
      · exact normalizeFlightStatus_norm a
      · exact normalizeFlightStatus_norm b

theorem preferKnown_none_iff (a b : Option String) :
    preferKnownStatus a b = none ↔
      (normalizeFlightStatus a = none ∧ normalizeFlightStatus b = none) := by
  unfold preferKnownStatus
  simp only
  cases hnb : normalizeFlightStatus b with
  | none => simp
  | some k =>
    cases hna : normalizeFlightStatus a with
    | none => simp
    | some c =>
      cases hlc : isLowSignalStatus (some c) <;> cases hlk : isLowSignalStatus (some k) <;>
        simp [hlc, hlk]

theorem preferKnown_low_right (a b : Option String) (hb : isLowSignalStatus b = true)
    (ha : normalizeFlightStatus a ≠ none) :
    preferKnownStatus a b = normalizeFlightStatus a := by
  unfold preferKnownStatus
  simp only
  cases hnb : normalizeFlightStatus b with
  | none => simp
  | some k =>
    have hlk : isLowSignalStatus (some k) = true := by
      rw [← hnb, isLowSignalStatus_norm, hb]
    cases hna : normalizeFlightStatus a with
    | none => exact absurd hna ha
    | some c =>
      cases hlc : isLowSignalStatus (some c) <;> simp [hlc, hlk]

theorem preferKnown_high_right (a b : Option String) (hb : isLowSignalStatus b = false) :
    preferKnownStatus a b = normalizeFlightStatus b := by
  unfold preferKnownStatus
  simp only
  cases hnb : normalizeFlightStatus b with
  | none =>
    have hT : isLowSignalStatus b = true := by
      rw [← isLowSignalStatus_norm, hnb]
      decide
    rw [hT] at hb
    exact absurd hb (by simp)
  | some k =>
    have hlk : isLowSignalStatus (some k) = false := by
      rw [← hnb, isLowSignalStatus_norm, hb]
    cases hna : normalizeFlightStatus a with
    | none => simp
    | some c => simp [hlk]

theorem preferKnown_refl (a : Option String) :
    preferKnownStatus a a = normalizeFlightStatus a := by
  unfold preferKnownStatus
  simp only
  cases hna : normalizeFlightStatus a with
  | none => simp
  | some c => cases hlc : isLowSignalStatus (some c) <;> simp [hlc]

theorem preferKnown_absorb (a b : Option String) :
    preferKnownStatus a (preferKnownStatus a b) = preferKnownStatus a b := by
  cases hb : isLowSignalStatus b with
  | false =>
    rw [preferKnown_high_right a b hb]
    rw [preferKnown_high_right a (normalizeFlightStatus b)
      (by rw [isLowSignalStatus_norm, hb])]
    exact normalizeFlightStatus_norm b
  | true =>
    cases ha : normalizeFlightStatus a with
    | some c =>
      rw [preferKnown_low_right a b hb (by rw [ha]; simp)]
      cases hla : isLowSignalStatus a with
      | true =>
        rw [preferKnown_low_right a (normalizeFlightStatus a)
          (by rw [isLowSignalStatus_norm, hla]) (by rw [ha]; simp)]
      | false =>
        rw [preferKnown_high_right a (normalizeFlightStatus a)
          (by rw [isLowSignalStatus_norm, hla])]
        exact normalizeFlightStatus_norm a
    | none =>
      cases hnb : normalizeFlightStatus b with
      | none =>
        have h1 : preferKnownStatus a b = none := (preferKnown_none_iff a b).mpr ⟨ha, hnb⟩
        have h2 : preferKnownStatus a none = none :=
          (preferKnown_none_iff a none).mpr ⟨ha, rfl⟩
        rw [h1, h2]
      | some k =>
        have hfix : normalizeFlightStatus (some k) = some k := by
          cases b with
          | none => exact absurd hnb (by simp [normalizeFlightStatus])
          | some v => exact normalizeFlightStatus_fix hnb
        have h1 : preferKnownStatus a b = some k := by
          unfold preferKnownStatus
          simp only
          rw [hnb, ha]
          simp
        rw [h1]
        unfold preferKnownStatus
        simp only
        rw [hfix, ha]
        simp

theorem normOp_char (status : Option String) (D : Option IsoString) (fd : Option String)
    (now : NowEnv) (sfd : Option String) :
    normalizeOperationalStatus status D fd now sfd =
      match normalizeFlightStatus status with
      | none => none
      | some y =>
        if (opGuardSourceDate D fd || opGuardFlightDate sfd fd || opGuardFutureDay fd now ||
            opGuardFutureDeparture D now) && progressLikeStatuses.contains y
        then some "scheduled" else some y := by
  unfold normalizeOperationalStatus
  cases normalizeFlightStatus status with
  | none => rfl
  | some y =>
    cases h1 : opGuardSourceDate D fd <;> cases h2 : opGuardFlightDate sfd fd <;>
      cases h3 : opGuardFutureDay fd now <;> cases h4 : opGuardFutureDeparture D now <;>
      by_cases h6 : y ∈ progressLikeStatuses <;>
      simp [h1, h2, h3, h4, h6]

theorem normOp_range {status : Option String} {D : Option IsoString} {fd : Option String}
    {now : NowEnv} {sfd : Option String} {y : String}
    (h : normalizeOperationalStatus status D fd now sfd = some y) :
    normalizeFlightStatus (some y) = some y := by
  cases hn : normalizeFlightStatus status with
  | none =>
    rw [normOp_char, hn] at h
    exact absurd h (by simp)
  | some z =>
    rw [normOp_char, hn] at h
    simp only at h
    by_cases hg : ((opGuardSourceDate D fd || opGuardFlightDate sfd fd ||
        opGuardFutureDay fd now || opGuardFutureDeparture D now) &&
        progressLikeStatuses.contains z) = true
    · rw [if_pos hg] at h
      injection h with h2
      subst h2
      decide
    · rw [if_neg hg] at h
      injection h with h2
      subst h2
      cases status with
      | none => exact absurd hn (by simp [normalizeFlightStatus])
      | some v => exact normalizeFlightStatus_fix hn

theorem normOp_stable {status : Option String} {D : Option IsoString} {fd : Option String}
    {now : NowEnv} {y : String}
    (h : normalizeOperationalStatus status D fd now none = some y) :
    normalizeOperationalStatus (some y) D fd now none = some y := by
  have hfix : normalizeFlightStatus (some y) = some y := normOp_range h
  rw [normOp_char, hfix]
  simp only
  cases hn : normalizeFlightStatus status with
  | none =>
    rw [normOp_char, hn] at h
    exact absurd h (by simp)
  | some z =>
    rw [normOp_char, hn] at h
    simp only at h
    by_cases hg : ((opGuardSourceDate D fd || opGuardFlightDate none fd ||
        opGuardFutureDay fd now || opGuardFutureDeparture D now) &&
        progressLikeStatuses.contains z) = true
    · rw [if_pos hg] at h
      injection h with h2
      subst h2
      rw [if_neg (by simp [progressLikeStatuses])]
    · rw [if_neg hg] at h
      injection h with h2
      subst h2
      rw [Bool.and_eq_true, not_and_or] at hg
      rcases hg with hg | hg
      · rw [if_neg (by rw [Bool.and_eq_true, not_and_or]; exact Or.inl hg)]
      · rw [if_neg (by rw [Bool.and_eq_true, not_and_or]; exact Or.inr hg)]

theorem candOf_norm (f : StoredFlight) (api : ApiFlight) (now : NowEnv) :
    normalizeFlightStatus (candOf f api now) = candOf f api now := by
  cases h : candOf f api now with
  | none => rfl
  | some y => exact normOp_range h

theorem candOf_persist (f : StoredFlight) (r : PollComputation) (t : Int) (api : ApiFlight)
    (now : NowEnv) : candOf (pollPersist f r t) api now = candOf f api now := rfl

theorem next0Of_persist (f : StoredFlight) (r : PollComputation) (t : Int) (api : ApiFlight)
    (now : NowEnv) :
    next0Of (pollPersist f r t) api now =
      preferKnownStatus (pollPersist f r t).currentStatus (candOf f api now) := rfl

theorem pollCompute_pos {f : StoredFlight} {api : ApiFlight} {env : ProviderEnv} {now : NowEnv}
    (h : shouldUseStatusFallback (next0Of f api now) (getDelayMinutes api) = true) :
    pollFlightCompute f api env now =
      pollFinish f (fallbackAccOf f api env now) (consultedOf f api env now) now := by
  unfold pollFlightCompute
  rw [if_pos h]

theorem pollCompute_neg {f : StoredFlight} {api : ApiFlight} {env : ProviderEnv} {now : NowEnv}
    (h : shouldUseStatusFallback (next0Of f api now) (getDelayMinutes api) = false) :
    pollFlightCompute f api env now = pollFinish f (acc0Of f api now) [] now := by
  unfold pollFlightCompute
  rw [if_neg (by simp [h])]

theorem pollCompute_consulted_nil_iff (f : StoredFlight) (api : ApiFlight) (env : ProviderEnv)
    (now : NowEnv) :
    (pollFlightCompute f api env now).consulted = [] ↔
      shouldUseStatusFallback (next0Of f api now) (getDelayMinutes api) = false := by
  constructor
  · intro h
    cases henter : shouldUseStatusFallback (next0Of f api now) (getDelayMinutes api) with
    | false => rfl
    | true =>
      rw [pollCompute_pos henter] at h
      have hcons : consultedOf f api env now = [] := h
      unfold consultedOf at hcons
      cases hno : (flightNoOf f api).isSome with
      | true => rw [hno] at hcons; simp at hcons
      | false =>
        have hfs : fsResultOf f api env = none := by
          unfold fsResultOf
          rw [hno]
          simp
        have hfa : faCondOf f api env now = true := by
          unfold faCondOf
          rw [hfs]
          simp
        rw [hno, hfa] at hcons
        simp at hcons
  · intro h
    rw [pollCompute_neg h]
    rfl

theorem applyFallback_status_shape (acc : MergeAcc) (rec : FallbackRecord) (f : StoredFlight)
    (api : ApiFlight) (now : NowEnv) :
    (applyFallbackRecord acc rec f api now).status = acc.status ∨
      ∃ y, (applyFallbackRecord acc rec f api now).status = preferKnownStatus acc.status y := by
  unfold applyFallbackRecord
  simp only
  split <;> split
  · right
    exact ⟨_, rfl⟩
  · left
    rfl
  · right
    exact ⟨_, rfl⟩
  · left
    rfl

theorem applyFallback_status_norm {acc : MergeAcc} (rec : FallbackRecord) (f : StoredFlight)
    (api : ApiFlight) (now : NowEnv)
    (hacc : normalizeFlightStatus acc.status = acc.status) :
    normalizeFlightStatus (applyFallbackRecord acc rec f api now).status =
      (applyFallbackRecord acc rec f api now).status := by
  rcases applyFallback_status_shape acc rec f api now with h | ⟨y, h⟩
  · rw [h, hacc]
  · rw [h]
    exact preferKnown_norm acc.status y

theorem applyFallback_status_none {acc : MergeAcc} {rec : FallbackRecord} {f : StoredFlight}
    {api : ApiFlight} {now : NowEnv}
    (hacc : normalizeFlightStatus acc.status = acc.status)
    (h : (applyFallbackRecord acc rec f api now).status = none) : acc.status = none := by
  rcases applyFallback_status_shape acc rec f api now with hs | ⟨y, hs⟩
  · rw [hs] at h
    exact h
  · rw [hs] at h
    have := (preferKnown_none_iff acc.status y).mp h
    rw [hacc] at this
    exact this.1

theorem acc0_status (f : StoredFlight) (api : ApiFlight) (now : NowEnv) :
    (acc0Of f api now).status = next0Of f api now := rfl

theorem acc0_status_norm (f : StoredFlight) (api : ApiFlight) (now : NowEnv) :
    normalizeFlightStatus (acc0Of f api now).status = (acc0Of f api now).status :=
  preferKnown_norm f.currentStatus (candOf f api now)

theorem accAfterFS_status_norm (f : StoredFlight) (api : ApiFlight) (env : ProviderEnv)
    (now : NowEnv) :
    normalizeFlightStatus (accAfterFSOf f api env now).status =
      (accAfterFSOf f api env now).status := by
  unfold accAfterFSOf
  cases fsResultOf f api env with
  | none => exact acc0_status_norm f api now
  | some rec => exact applyFallback_status_norm rec f api now (acc0_status_norm f api now)

theorem accAfterFS_status_none {f : StoredFlight} {api : ApiFlight} {env : ProviderEnv}
    {now : NowEnv} (h : (accAfterFSOf f api env now).status = none) :
    (acc0Of f api now).status = none := by
  unfold accAfterFSOf at h
  cases hfs : fsResultOf f api env with
  | none => rw [hfs] at h; exact h
  | some rec =>
    rw [hfs] at h
    exact applyFallback_status_none (acc0_status_norm f api now) h

theorem fallbackAcc_status_none {f : StoredFlight} {api : ApiFlight} {env : ProviderEnv}
    {now : NowEnv} (h : (fallbackAccOf f api env now).status = none) :
    (acc0Of f api now).status = none := by
  unfold fallbackAccOf at h
  by_cases hfa : faCondOf f api env now = true
  · rw [if_pos hfa] at h
    cases hrec : env.flightAware with
    | none =>
      rw [hrec] at h
      exact accAfterFS_status_none h
    | some rec =>
      rw [hrec] at h
      exact accAfterFS_status_none
        (applyFallback_status_none (accAfterFS_status_norm f api env now) h)
  · rw [if_neg hfa] at h
    exact accAfterFS_status_none h

theorem fallbackAcc_status_norm (f : StoredFlight) (api : ApiFlight) (env : ProviderEnv)
    (now : NowEnv) :
    normalizeFlightStatus (fallbackAccOf f api env now).status =
      (fallbackAccOf f api env now).status := by
  unfold fallbackAccOf
  by_cases hfa : faCondOf f api env now = true
  · rw [if_pos hfa]
    cases env.flightAware with
    | none => exact accAfterFS_status_norm f api env now
    | some rec => exact applyFallback_status_norm rec f api now (accAfterFS_status_norm f api env now)
  · rw [if_neg hfa]
    exact accAfterFS_status_norm f api env now

theorem pollCompute_second_run {f2 f : StoredFlight} {api : ApiFlight} {env : ProviderEnv}
    {now : NowEnv} (hfd : f2.flightDate = f.flightDate)
    (hsd : f2.scheduledDeparture = f.scheduledDeparture)
    (henter2 : shouldUseStatusFallback (next0Of f2 api now) (getDelayMinutes api) = false) :
    (pollFlightCompute f2 api env now).normalizedFinalStatus =
      normalizeOperationalStatus (preferKnownStatus f2.currentStatus (candOf f2 api now))
        (some f.scheduledDeparture) (some f.flightDate) now none := by
  rw [pollCompute_neg henter2]
  show finalNormOf f2 (acc0Of f2 api now) now = _
  unfold finalNormOf
  rw [acc0_status]
  show normalizeOperationalStatus
    (preferKnownStatus f2.currentStatus
      (preferKnownStatus f2.currentStatus (candOf f2 api now)))
    (some f2.scheduledDeparture) (some f2.flightDate) now none = _
  rw [preferKnown_absorb, hsd, hfd]

theorem pollCompute_production (f : StoredFlight) (api : ApiFlight) (env : ProviderEnv)
    (now : NowEnv) :
    ∃ acc : MergeAcc,
      normalizeFlightStatus acc.status = acc.status ∧
      (acc.status = none → (acc0Of f api now).status = none) ∧
      (pollFlightCompute f api env now).normalizedFinalStatus = finalNormOf f acc now := by
  cases henter : shouldUseStatusFallback (next0Of f api now) (getDelayMinutes api) with
  | true =>
    refine ⟨fallbackAccOf f api env now, fallbackAcc_status_norm f api env now, ?_, ?_⟩
    · exact fun hh => fallbackAcc_status_none hh
    · rw [pollCompute_pos henter]
      rfl
  | false =>
    refine ⟨acc0Of f api now, acc0_status_norm f api now, fun hh => hh, ?_⟩
    rw [pollCompute_neg henter]
    rfl

theorem pollCompute_idem (f : StoredFlight) (api : ApiFlight) (env : ProviderEnv) (now : NowEnv)
    (t : Int)
    (h : (pollFlightCompute (pollPersist f (pollFlightCompute f api env now) t)
        api env now).consulted = []) :
    (pollFlightCompute (pollPersist f (pollFlightCompute f api env now) t)
        api env now).insertsChange = false ∧
    ∀ t2 : Int,
      (pollPersist (pollPersist f (pollFlightCompute f api env now) t)
        (pollFlightCompute (pollPersist f (pollFlightCompute f api env now) t) api env now)
        t2).currentStatus =
      (pollPersist f (pollFlightCompute f api env now) t).currentStatus := by
  set r1 := pollFlightCompute f api env now with hr1
  set f2 := pollPersist f r1 t with hf2
  set r2 := pollFlightCompute f2 api env now with hr2
  have henter2 : shouldUseStatusFallback (next0Of f2 api now) (getDelayMinutes api) = false :=
    (pollCompute_consulted_nil_iff f2 api env now).mp h
  have hfd : f2.flightDate = f.flightDate := by rw [hf2]; rfl
  have hsd : f2.scheduledDeparture = f.scheduledDeparture := by rw [hf2]; rfl
  have hcand2 : candOf f2 api now = candOf f api now := by rw [hf2]; rfl
  have hnf2 : r2.normalizedFinalStatus =
      normalizeOperationalStatus (preferKnownStatus f2.currentStatus (candOf f api now))
        (some f.scheduledDeparture) (some f.flightDate) now none := by
    rw [hr2, pollCompute_second_run hfd hsd henter2, hcand2]
  have hr2e : r2 = pollFinish f2 (acc0Of f2 api now) [] now := by
    rw [hr2]
    exact pollCompute_neg henter2
  have hins : r2.insertsChange =
      (decide (f2.currentStatus ≠ r2.normalizedFinalStatus) &&
        r2.normalizedFinalStatus.isSome) := by
    rw [hr2e]
    rfl
  have hcs2 : f2.currentStatus =
      (if r1.normalizedFinalStatus.isSome then r1.normalizedFinalStatus
        else f.currentStatus) := by
    rw [hf2]
    rfl
  obtain ⟨acc, haccN, haccNone, hfin⟩ := pollCompute_production f api env now
  rw [← hr1] at hfin
  cases hnf1 : r1.normalizedFinalStatus with
  | none =>
    have hcs2e : f2.currentStatus = f.currentStatus := by
      rw [hcs2, hnf1]
      rfl
    rw [hnf1] at hfin
    have hpk_none : preferKnownStatus f.currentStatus acc.status = none := by
      have hc := normOp_char (preferKnownStatus f.currentStatus acc.status)
        (some f.scheduledDeparture) (some f.flightDate) now none
      rw [preferKnown_norm] at hc
      cases hpk : preferKnownStatus f.currentStatus acc.status with
      | none => rfl
      | some z =>
        rw [hpk] at hc
        unfold finalNormOf at hfin
        rw [hpk, hc] at hfin
        simp only at hfin
        split at hfin <;> exact absurd hfin (by simp)
    have hNfcs : normalizeFlightStatus f.currentStatus = none :=
      ((preferKnown_none_iff _ _).mp hpk_none).1
    have hNacc : normalizeFlightStatus acc.status = none :=
      ((preferKnown_none_iff _ _).mp hpk_none).2
    have hacc_none : acc.status = none := by rw [← haccN, hNacc]
    have hacc0_none : (acc0Of f api now).status = none := haccNone hacc_none
    have hcand_none : candOf f api now = none := by
      have hnn : next0Of f api now = none := by
        rw [← acc0_status f api now]
        exact hacc0_none
      have hsplit := (preferKnown_none_iff f.currentStatus (candOf f api now)).mp hnn
      rw [← candOf_norm f api now, hsplit.2]
    have hpk2_none : preferKnownStatus f2.currentStatus (candOf f api now) = none := by
      rw [hcs2e, hcand_none]
      exact (preferKnown_none_iff _ _).mpr ⟨hNfcs, rfl⟩
    have hnf2_none : r2.normalizedFinalStatus = none := by
      rw [hnf2, hpk2_none]
      rfl
    constructor
    · rw [hins, hnf2_none]
      simp
    · intro t2
      show (if r2.normalizedFinalStatus.isSome then r2.normalizedFinalStatus
        else f2.currentStatus) = f2.currentStatus
      rw [hnf2_none]
      rfl
  | some z =>
    have hcs2e : f2.currentStatus = some z := by
      rw [hcs2, hnf1]
      rfl
    rw [hnf1] at hfin
    have hstar : normalizeOperationalStatus (preferKnownStatus f.currentStatus acc.status)
        (some f.scheduledDeparture) (some f.flightDate) now none = some z := hfin.symm
    have hstable : normalizeOperationalStatus (some z) (some f.scheduledDeparture)
        (some f.flightDate) now none = some z := normOp_stable hstar
    have hfixz : normalizeFlightStatus (some z) = some z := normOp_range hstar
    by_cases hlow : isLowSignalStatus (candOf f api now) = true
    · have hpk2 : preferKnownStatus f2.currentStatus (candOf f api now) = some z := by
        rw [hcs2e, preferKnown_low_right (some z) _ hlow (by rw [hfixz]; simp)]
        exact hfixz
      have hnf2z : r2.normalizedFinalStatus = some z := by
        rw [hnf2, hpk2]
        exact hstable
      constructor
      · rw [hins, hnf2z, hcs2e]
        simp
      · intro t2
        show (if r2.normalizedFinalStatus.isSome then r2.normalizedFinalStatus
          else f2.currentStatus) = f2.currentStatus
        rw [hnf2z, hcs2e]
        rfl
    · have hlowf : isLowSignalStatus (candOf f api now) = false := by
        cases hv : isLowSignalStatus (candOf f api now) with
        | true => exact absurd hv hlow
        | false => rfl
      have hpkc : ∀ a : Option String,
          preferKnownStatus a (candOf f api now) = candOf f api now := by
        intro a
        rw [preferKnown_high_right a _ hlowf, candOf_norm]
      have hnext0 : next0Of f api now = candOf f api now := hpkc f.currentStatus
      have henter1 : shouldUseStatusFallback (next0Of f api now) (getDelayMinutes api) = false := by
        rw [hnext0]
        unfold shouldUseStatusFallback
        rw [hlowf]
        simp
      have hr1e : r1 = pollFinish f (acc0Of f api now) [] now := by
        rw [hr1]
        exact pollCompute_neg henter1
      have hstar1 : normalizeOperationalStatus (candOf f api now) (some f.scheduledDeparture)
          (some f.flightDate) now none = some z := by
        have hthis : r1.normalizedFinalStatus = finalNormOf f (acc0Of f api now) now := by
          rw [hr1e]
          rfl
        rw [hnf1] at hthis
        unfold finalNormOf at hthis
        rw [acc0_status, hnext0, hpkc f.currentStatus] at hthis
        exact hthis.symm
      have hpk2 : preferKnownStatus f2.currentStatus (candOf f api now) = candOf f api now :=
        hpkc f2.currentStatus
      have hnf2z : r2.normalizedFinalStatus = some z := by
        rw [hnf2, hpk2, hstar1]
      constructor
      · rw [hins, hnf2z, hcs2e]
        simp
      · intro t2
        show (if r2.normalizedFinalStatus.isSome then r2.normalizedFinalStatus
          else f2.currentStatus) = f2.currentStatus
        rw [hnf2z, hcs2e]
        rfl

theorem normalizeFlightStatus_ne_none_of_high {s : Option String}
    (h : isLowSignalStatus s = false) : normalizeFlightStatus s ≠ none := by
  intro hn
  unfold isLowSignalStatus at h
  rw [hn] at h
  simp at h

theorem preferKnown_none_left {a : Option String} (b : Option String)
    (ha : normalizeFlightStatus a = none) :
    preferKnownStatus a b = normalizeFlightStatus b := by
  unfold preferKnownStatus
  simp only
  rw [ha]
  cases hnb : normalizeFlightStatus b with
  | none => simp
  | some k => simp

theorem preferKnown_no_regression (a b : Option String)
    (ha : isLowSignalStatus a = false) :
    isLowSignalStatus (preferKnownStatus a b) = false := by
  cases hb : isLowSignalStatus b with
  | true =>
    rw [preferKnown_low_right a b hb (normalizeFlightStatus_ne_none_of_high ha),
      isLowSignalStatus_norm, ha]
  | false =>
    rw [preferKnown_high_right a b hb, isLowSignalStatus_norm, hb]

theorem normOp_none_iff (s : Option String) (D : Option IsoString) (fd : Option String)
    (now : NowEnv) (sfd : Option String) :
    normalizeOperationalStatus s D fd now sfd = none ↔ normalizeFlightStatus s = none := by
  rw [normOp_char]
  cases hn : normalizeFlightStatus s with
  | none => simp
  | some y =>
    simp only
    split <;> simp

theorem pollCompute_insert_iff (f : StoredFlight) (api : ApiFlight) (env : ProviderEnv)
    (now : NowEnv) :
    (pollFlightCompute f api env now).insertsChange =
      (decide (f.currentStatus ≠ (pollFlightCompute f api env now).normalizedFinalStatus) &&
        (pollFlightCompute f api env now).normalizedFinalStatus.isSome) := by
  cases henter : shouldUseStatusFallback (next0Of f api now) (getDelayMinutes api) with
  | true => rw [pollCompute_pos henter]; rfl
  | false => rw [pollCompute_neg henter]; rfl

theorem pollCompute_isActive (f : StoredFlight) (api : ApiFlight) (env : ProviderEnv)
    (now : NowEnv) :
    (pollFlightCompute f api env now).isActive =
      !isTerminalFlightStatus (pollFlightCompute f api env now).normalizedFinalStatus := by
  cases henter : shouldUseStatusFallback (next0Of f api now) (getDelayMinutes api) with
  | true => rw [pollCompute_pos henter]; rfl
  | false => rw [pollCompute_neg henter]; rfl

theorem pollCompute_nf_none_ncs {f : StoredFlight} {api : ApiFlight} {env : ProviderEnv}
    {now : NowEnv}
    (h : (pollFlightCompute f api env now).normalizedFinalStatus = none) :
    normalizeFlightStatus f.currentStatus = none := by
  obtain ⟨acc, haccN, _, hfin⟩ := pollCompute_production f api env now
  rw [h] at hfin
  unfold finalNormOf at hfin
  have := (normOp_none_iff _ _ _ _ _).mp hfin.symm
  rw [preferKnown_norm] at this
  exact ((preferKnown_none_iff _ _).mp this).1

theorem pollCompute_consulted_cases (f : StoredFlight) (api : ApiFlight) (env : ProviderEnv)
    (now : NowEnv) :
    (pollFlightCompute f api env now).consulted = [] ∨
    (pollFlightCompute f api env now).consulted = [FallbackProvider.flightStats] ∨
    (pollFlightCompute f api env now).consulted =
      [FallbackProvider.flightStats, FallbackProvider.flightAware] ∨
    ((pollFlightCompute f api env now).consulted = [FallbackProvider.flightAware] ∧
      flightNoOf f api = none) := by
  cases henter : shouldUseStatusFallback (next0Of f api now) (getDelayMinutes api) with
  | false => exact Or.inl ((pollCompute_consulted_nil_iff f api env now).mpr henter)
  | true =>
    have hc : (pollFlightCompute f api env now).consulted =
        (if (flightNoOf f api).isSome then [FallbackProvider.flightStats] else []) ++
          (if faCondOf f api env now then [FallbackProvider.flightAware] else []) := by
      rw [pollCompute_pos henter]
      rfl
    cases hno : (flightNoOf f api) with
    | some n =>
      cases hfa : faCondOf f api env now with
      | true =>
        right; right; left
        rw [hc, hno, hfa]
        rfl
      | false =>
        right; left
        rw [hc, hno, hfa]
        rfl
    | none =>
      have hfs : fsResultOf f api env = none := by
        unfold fsResultOf
        rw [hno]
        simp
      have hfa : faCondOf f api env now = true := by
        unfold faCondOf
        rw [hfs]
        simp
      right; right; right
      refine ⟨?_, rfl⟩
      rw [hc, hno, hfa]
      rfl

theorem pollCompute_fa_not_consulted {f : StoredFlight} {api : ApiFlight} {env : ProviderEnv}
    {now : NowEnv} {rec : FallbackRecord}
    (hfs : fsResultOf f api env = some rec)
    (hres : shouldUseStatusFallback (accAfterFSOf f api env now).status
      (accAfterFSOf f api env now).delay = false) :
    FallbackProvider.flightAware ∉ (pollFlightCompute f api env now).consulted := by
  have hfa : faCondOf f api env now = false := by
    unfold faCondOf
    rw [hfs, hres]
    simp
  cases henter : shouldUseStatusFallback (next0Of f api now) (getDelayMinutes api) with
  | false =>
    rw [(pollCompute_consulted_nil_iff f api env now).mpr henter]
    simp
  | true =>
    rw [pollCompute_pos henter]
    show FallbackProvider.flightAware ∉ consultedOf f api env now
    unfold consultedOf
    rw [hfa]
    cases (flightNoOf f api).isSome <;> simp

theorem pollPersist_terminal_inactive (f : StoredFlight) (api : ApiFlight) (env : ProviderEnv)
    (now : NowEnv) (t : Int)
    (h : isTerminalFlightStatus
      (pollPersist f (pollFlightCompute f api env now) t).currentStatus = true) :
    (pollPersist f (pollFlightCompute f api env now) t).isActive = false := by
  have hact : (pollPersist f (pollFlightCompute f api env now) t).isActive =
      !isTerminalFlightStatus (pollFlightCompute f api env now).normalizedFinalStatus :=
    pollCompute_isActive f api env now
  cases hnf : (pollFlightCompute f api env now).normalizedFinalStatus with
  | some z =>
    have hcs : (pollPersist f (pollFlightCompute f api env now) t).currentStatus = some z := by
      show (if (pollFlightCompute f api env now).normalizedFinalStatus.isSome then
        (pollFlightCompute f api env now).normalizedFinalStatus else f.currentStatus) = some z
      rw [hnf]
      rfl
    rw [hcs] at h
    rw [hact, hnf, h]
    rfl
  | none =>
    have hcs : (pollPersist f (pollFlightCompute f api env now) t).currentStatus =
        f.currentStatus := by
      show (if (pollFlightCompute f api env now).normalizedFinalStatus.isSome then
        (pollFlightCompute f api env now).normalizedFinalStatus else f.currentStatus) =
        f.currentStatus
      rw [hnf]
      rfl
    rw [hcs] at h
    have hncs : normalizeFlightStatus f.currentStatus = none := pollCompute_nf_none_ncs hnf
    unfold isTerminalFlightStatus at h
    rw [hncs] at h
    simp at h

theorem statusRefresh_terminal_inactive (oldStatus newStatus : Option String)
    (sd : IsoString) (fd : String) (now : NowEnv)
    (h : isTerminalFlightStatus
      (statusRefreshPersist oldStatus newStatus sd fd now).currentStatus = true) :
    (statusRefreshPersist oldStatus newStatus sd fd now).isActive = false := by
  cases hfs : normalizeOperationalStatus (preferKnownStatus oldStatus newStatus) (some sd)
      (some fd) now none with
  | some z =>
    have hcs : (statusRefreshPersist oldStatus newStatus sd fd now).currentStatus = some z := by
      unfold statusRefreshPersist
      simp only
      rw [hfs]
      rfl
    have hact : (statusRefreshPersist oldStatus newStatus sd fd now).isActive =
        !isTerminalFlightStatus (some z) := by
      unfold statusRefreshPersist
      simp only
      rw [hfs]
    rw [hcs] at h
    rw [hact, h]
    rfl
  | none =>
    have hcs : (statusRefreshPersist oldStatus newStatus sd fd now).currentStatus =
        oldStatus := by
      unfold statusRefreshPersist
      simp only
      rw [hfs]
      rfl
    rw [hcs] at h
    have hno : normalizeFlightStatus oldStatus = none := by
      have hx := (normOp_none_iff _ _ _ _ _).mp hfs
      rw [preferKnown_norm] at hx
      exact ((preferKnown_none_iff _ _).mp hx).1
    unfold isTerminalFlightStatus at h
    rw [hno] at h
    simp at h

theorem scheduler_terminal_deactivates (f : StoredFlight) (now : NowEnv)
    (h : isTerminalFlightStatus f.currentStatus = true) :
    pollFlightsDecision f now = PollDecision.deactivate := by
  unfold pollFlightsDecision
  rw [if_pos h]

theorem foldl_max_init_le (h : Int) (t : List Int) : h ≤ t.foldl max h := by
  induction t generalizing h with
  | nil => exact le_refl h
  | cons a t2 ih =>
    calc h ≤ max h a := le_max_left h a
    _ ≤ t2.foldl max (max h a) := ih (max h a)

theorem foldl_max_le (h : Int) (t : List Int) : ∀ y ∈ t, y ≤ t.foldl max h := by
  induction t generalizing h with
  | nil => intro y hy; exact absurd hy (List.not_mem_nil y)
  | cons a t2 ih =>
    intro y hy
    rcases List.mem_cons.mp hy with rfl | hy2
    · calc y ≤ max h y := le_max_right h y
      _ ≤ t2.foldl max (max h y) := foldl_max_init_le _ _
    · exact ih (max h a) y hy2

theorem foldl_max_mem (h : Int) (t : List Int) : t.foldl max h ∈ h :: t := by
  induction t generalizing h with
  | nil => exact List.mem_cons_self h []
  | cons a t2 ih =>
    have := ih (max h a)
    rcases List.mem_cons.mp this with he | hmem
    · rw [List.foldl_cons, he]
      rcases max_choice h a with hm | hm <;> rw [hm]
      · exact List.mem_cons_self h (a :: t2)
      · exact List.mem_cons_of_mem h (List.mem_cons_self a t2)
    · rw [List.foldl_cons]
      exact List.mem_cons_of_mem h (List.mem_cons_of_mem a hmem)

theorem getDelayFromTimes_pos {times : Option FlightAwareTimes} {m : Int}
    (h : getDelayFromTimes times = some m) : 0 < m := by
  unfold getDelayFromTimes at h
  cases times with
  | none => exact absurd h (by simp)
  | some t =>
    simp only at h
    cases he : t.estimated with
    | none => rw [he] at h; exact absurd h (by simp)
    | some e =>
      cases hs : t.scheduled with
      | none => rw [he, hs] at h; exact absurd h (by simp)
      | some s =>
        rw [he, hs] at h
        simp only at h
        by_cases hz : (decide (e = 0) || decide (s = 0)) = true
        · rw [if_pos hz] at h
          exact absurd h (by simp)
        · rw [if_neg hz] at h
          by_cases hp : 0 < jsRoundDiv (e - s) 60
          · rw [if_pos hp] at h
            injection h with h2
            rw [← h2]
            exact hp
          · rw [if_neg hp] at h
            exact absurd h (by simp)

theorem faDelayCandidates_pos {flight : FlightAwareFlightRec} {y : Int}
    (h : y ∈ faDelayCandidates flight) : 0 < y := by
  unfold faDelayCandidates at h
  rcases List.mem_filterMap.mp h with ⟨o, ho, hid⟩
  have hoy : o = some y := by
    cases o with
    | none => exact absurd hid (by simp)
    | some v => simp only [id] at hid; rw [hid]
  rw [hoy] at ho
  simp only [List.mem_cons, List.not_mem_nil, or_false] at ho
  rcases ho with he | he | he | he <;> exact getDelayFromTimes_pos he.symm

theorem faGetDelayMinutes_spec (flight : FlightAwareFlightRec) (x : Int)
    (h : faGetDelayMinutes flight = some x) :
    x ∈ faDelayCandidates flight ∧ ∀ y ∈ faDelayCandidates flight, y ≤ x := by
  unfold faGetDelayMinutes at h
  cases hc : faDelayCandidates flight with
  | nil => rw [hc] at h; exact absurd h (by simp)
  | cons hd tl =>
    rw [hc] at h
    injection h with h2
    rw [← h2]
    constructor
    · exact foldl_max_mem hd tl
    · intro y hy
      rcases List.mem_cons.mp hy with rfl | hy2
      · exact foldl_max_init_le y tl
      · exact foldl_max_le hd tl y hy2

/-- C1 counterexample: a blank current status is low-signal — by the
code's own `isLowSignalStatus`, and the spec's glossary lists "blank"
among the low-signal values — and "unknown" is low-signal, yet
`preferKnownStatus("", "unknown")` returns the candidate "unknown"
instead of keeping the current value, so "if both current and candidate
are low-signal it keeps current" fails at this input. -/
theorem preferKnownStatus_blank_current_counterexample :
    isLowSignalStatus (some "") = true ∧
    isLowSignalStatus (some "unknown") = true ∧
    preferKnownStatus (some "") (some "unknown") = some "unknown" ∧
    normalizeFlightStatus (some "") = none := by decide

/-- C1 (amended): `preferKnownStatus` never replaces a known
(non-low-signal) current status with a low-signal candidate; when both
are low-signal and the current status is non-blank it keeps the
(normalized) current status; when the candidate is non-low-signal, or the
current status is blank/absent, it returns the normalized candidate; the
result is never low-signal when the current status was known; and
`preferKnownStatus("departed", "unknown") = "departed"`. -/
theorem preferKnownStatus_merge_rule :
    (∀ cur cand : Option String, isLowSignalStatus cur = false →
      isLowSignalStatus cand = true →
      preferKnownStatus cur cand = normalizeFlightStatus cur) ∧
    (∀ cur cand : Option String, normalizeFlightStatus cur ≠ none →
      isLowSignalStatus cur = true → isLowSignalStatus cand = true →
      preferKnownStatus cur cand = normalizeFlightStatus cur) ∧
    (∀ cur cand : Option String, isLowSignalStatus cand = false →
      preferKnownStatus cur cand = normalizeFlightStatus cand) ∧
    (∀ cur cand : Option String, normalizeFlightStatus cur = none →
      preferKnownStatus cur cand = normalizeFlightStatus cand) ∧
    (∀ cur cand : Option String, isLowSignalStatus cur = false →
      isLowSignalStatus (preferKnownStatus cur cand) = false) ∧
    preferKnownStatus (some "departed") (some "unknown") = some "departed" := by
  refine ⟨?_, ?_, ?_, ?_, ?_, by decide⟩
  · intro cur cand hc hk
    exact preferKnown_low_right cur cand hk (normalizeFlightStatus_ne_none_of_high hc)
  · intro cur cand hne hc hk
    exact preferKnown_low_right cur cand hk hne
  · intro cur cand hk
    exact preferKnown_high_right cur cand hk
  · intro cur cand hc
    exact preferKnown_none_left cand hc
  · intro cur cand hc
    exact preferKnown_no_regression cur cand hc

/-- C1 witness: the merge rule evaluated at concrete inputs. -/
theorem preferKnownStatus_merge_rule_witness :
    preferKnownStatus (some "departed") (some "unknown") = some "departed" ∧
    preferKnownStatus (some "scheduled") (some "unknown") = some "scheduled" ∧
    preferKnownStatus (some "scheduled") (some "departed") = some "departed" ∧
    isLowSignalStatus (preferKnownStatus (some "delayed") (some "unknown")) = false := by
  refine ⟨?_, ?_, ?_, ?_⟩
  · exact (preferKnownStatus_merge_rule.1 (some "departed") (some "unknown")
      (by decide) (by decide)).trans (by decide)
  · exact (preferKnownStatus_merge_rule.2.1 (some "scheduled") (some "unknown")
      (by decide) (by decide) (by decide)).trans (by decide)
  · exact (preferKnownStatus_merge_rule.2.2.1 (some "scheduled") (some "departed")
      (by decide)).trans (by decide)
  · exact preferKnownStatus_merge_rule.2.2.2.2.1 (some "delayed") (some "unknown") (by decide)

/-- C2: `canMakeRequest` returns true iff remaining budget exceeds the
reserve (normal callers), respectively iff any budget remains
(`allowReserve`); with limit 100 and reserve 5, at used = 96 the normal
call is refused and the reserve call allowed, and at used = 100 both are
refused.  The `allowReserve` variant of api-budget.ts is modelled from the
spec (see `canMakeRequest`); `getUsage` follows the in-repo source. -/
theorem canMakeRequest_budget_gating :
    (∀ used : Nat, (canMakeRequest used false = true ↔
      BUDGET_RESERVE < (getUsage used).remaining)) ∧
    (∀ used : Nat, (canMakeRequest used true = true ↔ 0 < (getUsage used).remaining)) ∧
    canMakeRequest 96 false = false ∧ canMakeRequest 96 true = true ∧
    canMakeRequest 100 false = false ∧ canMakeRequest 100 true = false := by
  refine ⟨?_, ?_, by decide, by decide, by decide, by decide⟩
  · intro used
    unfold canMakeRequest
    simp
  · intro used
    unfold canMakeRequest
    simp

/-- C3 counterexample: `updateFlightById` writes `isActive: true`
unconditionally, so updating a stored flight from an input whose status
is the terminal "landed" leaves a terminal-status flight active. -/
theorem updateFlightById_terminal_active_counterexample :
    isTerminalFlightStatus (updateFlightById exFlight1 exLandedInput).currentStatus = true ∧
    (updateFlightById exFlight1 exLandedInput).isActive = true := by decide

/-- C3 (amended): after the polling-worker persist step and the on-demand
status-refresh persist step, a flight whose canonical status is terminal
is never left active, and the scheduler deactivates rather than polls a
flight whose stored status is terminal; `updateFlightById`, however,
always writes active = true, even when the input's status is terminal. -/
theorem terminal_flights_never_active :
    (∀ (f : StoredFlight) (api : ApiFlight) (env : ProviderEnv) (now : NowEnv) (t : Int),
      isTerminalFlightStatus
        (pollPersist f (pollFlightCompute f api env now) t).currentStatus = true →
      (pollPersist f (pollFlightCompute f api env now) t).isActive = false) ∧
    (∀ (o n : Option String) (sd : IsoString) (fd : String) (now : NowEnv),
      isTerminalFlightStatus (statusRefreshPersist o n sd fd now).currentStatus = true →
      (statusRefreshPersist o n sd fd now).isActive = false) ∧
    (∀ (f : StoredFlight) (now : NowEnv), isTerminalFlightStatus f.currentStatus = true →
      pollFlightsDecision f now = PollDecision.deactivate) ∧
    (∀ (f : StoredFlight) (inp : FlightInput), (updateFlightById f inp).isActive = true) := by
  refine ⟨?_, ?_, ?_, ?_⟩
  · exact pollPersist_terminal_inactive
  · exact statusRefresh_terminal_inactive
  · exact scheduler_terminal_deactivates
  · intro f inp
    rfl

/-- C3 witness: the deactivation facts evaluated on the concrete
"landed" scenario. -/
theorem terminal_flights_never_active_witness :
    (pollPersist exFlight2 (pollFlightCompute exFlight2 exApi2 exEnv1 exNow) 5).isActive
      = false ∧
    (statusRefreshPersist (some "departed") (some "landed") exDepPast "2026-03-01"
      exNow).isActive = false ∧
    pollFlightsDecision (updateFlightById exFlight1 exLandedInput) exNow =
      PollDecision.deactivate ∧
    (updateFlightById exFlight1 exLandedInput).isActive = true := by
  refine ⟨?_, ?_, ?_, ?_⟩
  · exact terminal_flights_never_active.1 exFlight2 exApi2 exEnv1 exNow 5 (by decide)
  · exact terminal_flights_never_active.2.1 (some "departed") (some "landed") exDepPast
      "2026-03-01" exNow (by decide)
  · exact terminal_flights_never_active.2.2.1 (updateFlightById exFlight1 exLandedInput)
      exNow (by decide)
  · exact terminal_flights_never_active.2.2.2 exFlight1 exLandedInput

/-- C4 counterexample: two reconciliation passes with identical provider
data and clock.  Stored status "departed", primary answer low-signal
"scheduled", FlightStats would answer "cancelled".  The first pass
inserts a StatusChangeRecord (departed → scheduled: the future-departure
guard downgrades the merged status) without consulting any fallback; the
second pass — now low-signal — consults FlightStats and inserts a second
StatusChangeRecord (scheduled → cancelled), changing the stored canonical
status.  So running reconciliation twice with identical provider data
does not insert zero additional records on the second run. -/
theorem pollFlight_second_run_insert_counterexample :
    exRun1.insertsChange = true ∧ exRun1.consulted = [] ∧
    exRun2.insertsChange = true ∧
    exRun2.consulted = [FallbackProvider.flightStats] ∧
    (pollPersist exPersist1 exRun2 6).currentStatus ≠ exPersist1.currentStatus := by decide

/-- C4 (amended): a StatusChangeRecord is inserted only when the final
canonical status differs from the stored canonical status (and is
present); and a second reconciliation pass that consults no fallback
provider inserts nothing and leaves the stored canonical status
unchanged.  The unconditional two-run idempotence of the original claim
fails when the first pass's temporal guard downgrades the status to
low-signal and thereby unlocks a fallback consultation the first pass
skipped (see the counterexample). -/
theorem pollFlight_insert_only_on_status_change :
    (∀ (f : StoredFlight) (api : ApiFlight) (env : ProviderEnv) (now : NowEnv),
      (pollFlightCompute f api env now).insertsChange = true →
      f.currentStatus ≠ (pollFlightCompute f api env now).normalizedFinalStatus ∧
      (pollFlightCompute f api env now).normalizedFinalStatus.isSome = true) ∧
    (∀ (f : StoredFlight) (api : ApiFlight) (env : ProviderEnv) (now : NowEnv) (t : Int),
      (pollFlightCompute (pollPersist f (pollFlightCompute f api env now) t)
        api env now).consulted = [] →
      (pollFlightCompute (pollPersist f (pollFlightCompute f api env now) t)
        api env now).insertsChange = false ∧
      ∀ t2 : Int,
        (pollPersist (pollPersist f (pollFlightCompute f api env now) t)
          (pollFlightCompute (pollPersist f (pollFlightCompute f api env now) t) api env now)
          t2).currentStatus =
        (pollPersist f (pollFlightCompute f api env now) t).currentStatus) := by
  constructor
  · intro f api env now h
    rw [pollCompute_insert_iff] at h
    rcases (Bool.and_eq_true _ _).mp h with ⟨h1, h2⟩
    exact ⟨of_decide_eq_true h1, h2⟩
  · exact pollCompute_idem

/-- C4 witness: the insert-only-on-change part at the first concrete pass,
and the no-fallback idempotence at the fallback-free scenario. -/
theorem pollFlight_insert_only_on_status_change_witness :
    (exFlight1.currentStatus ≠ exRun1.normalizedFinalStatus ∧
      exRun1.normalizedFinalStatus.isSome = true) ∧
    exRunB2.insertsChange = false ∧
    (pollPersist exPersistB1 exRunB2 6).currentStatus = exPersistB1.currentStatus := by
  refine ⟨?_, ?_, ?_⟩
  · exact pollFlight_insert_only_on_status_change.1 exFlight1 exApi1 exEnv1 exNow (by decide)
  · exact (pollFlight_insert_only_on_status_change.2 exFlight2 exApi2 exEnv1 exNow 5
      (by decide)).1
  · exact (pollFlight_insert_only_on_status_change.2 exFlight2 exApi2 exEnv1 exNow 5
      (by decide)).2 6

/-- C5: for a status normalizing into the progress-like set {active,
departed, landed, arrived, completed}, `normalizeOperationalStatus`
returns "scheduled" whenever the provider record's own flight date
precedes the requested tracked date, or the tracked date is after today,
or the scheduled departure parses to a time strictly after now. -/
theorem normalizeOperationalStatus_future_guard :
    ∀ (status : Option String) (D : Option IsoString) (fd : Option String) (now : NowEnv)
      (sfd : Option String) (y : String),
      normalizeFlightStatus status = some y → y ∈ progressLikeStatuses →
      ((∃ d fdv, sfd = some d ∧ fd = some fdv ∧ jsStrLt d fdv = true) ∨
        (∃ fdv, fd = some fdv ∧ jsStrLt now.today fdv = true) ∨
        (∃ iso ms, D = some iso ∧ iso.parseMs = some ms ∧ now.ms < ms)) →
      normalizeOperationalStatus status D fd now sfd = some "scheduled" := by
  intro status D fd now sfd y hy hp hg
  rw [normOp_char, hy]
  simp only
  have hgb : (opGuardSourceDate D fd || opGuardFlightDate sfd fd || opGuardFutureDay fd now ||
      opGuardFutureDeparture D now) = true := by
    rcases hg with ⟨d, fdv, h1, h2, h3⟩ | ⟨fdv, h1, h2⟩ | ⟨iso, ms, h1, h2, h3⟩
    · have hx : opGuardFlightDate sfd fd = true := by
        unfold opGuardFlightDate
        rw [h1, h2]
        exact h3
      simp [hx]
    · have hx : opGuardFutureDay fd now = true := by
        unfold opGuardFutureDay
        rw [h1]
        exact h2
      simp [hx]
    · have hx : opGuardFutureDeparture D now = true := by
        unfold opGuardFutureDeparture
        rw [h1]
        show (match iso.parseMs with
          | some ms => decide (now.ms < ms)
          | none => false) = true
        rw [h2]
        simp [h3]
      simp [hx]
  simp [hgb, hp]

/-- C5 witness: "active" with a scheduled departure two days after now
comes back as "scheduled". -/
theorem normalizeOperationalStatus_future_guard_witness :
    normalizeOperationalStatus (some "active")
      (some ⟨"2026-03-03", some 1172800000⟩) (some "2026-03-01") exNow none =
      some "scheduled" := by
  exact normalizeOperationalStatus_future_guard (some "active")
    (some ⟨"2026-03-03", some 1172800000⟩) (some "2026-03-01") exNow none "active"
    (by decide) (by decide)
    (Or.inr (Or.inr ⟨⟨"2026-03-03", some 1172800000⟩, 1172800000, rfl, rfl, by decide⟩))

/-- C7: `shouldUseDepartureStandInfo` is false whenever the status
normalizes to "scheduled"; false whenever the tracked flight date is a
calendar day after today; and true for a non-"scheduled" status on a
non-future tracked date whose parsed scheduled departure is at most six
hours in the future. -/
theorem shouldUseDepartureStandInfo_window :
    (∀ (D : Option IsoString) (fd : Option String) (status : Option String) (now : NowEnv),
      normalizeFlightStatus status = some "scheduled" →
      shouldUseDepartureStandInfo D fd status now = false) ∧
    (∀ (D : Option IsoString) (fd : Option String) (status : Option String) (now : NowEnv)
      (fdv : String), fd = some fdv → jsStrLt now.today fdv = true →
      shouldUseDepartureStandInfo D fd status now = false) ∧
    (∀ (iso : IsoString) (fd : Option String) (status : Option String) (now : NowEnv)
      (ms : Int), normalizeFlightStatus status ≠ some "scheduled" →
      (∀ v, fd = some v → jsStrLt now.today v = false) →
      iso.parseMs = some ms → ms - now.ms ≤ GATE_INFO_WINDOW_MS →
      shouldUseDepartureStandInfo (some iso) fd status now = true) := by
  refine ⟨?_, ?_, ?_⟩
  · intro D fd status now hs
    unfold shouldUseDepartureStandInfo
    rw [if_pos hs]
  · intro D fd status now fdv hfd hlt
    unfold shouldUseDepartureStandInfo
    by_cases hs : normalizeFlightStatus status = some "scheduled"
    · rw [if_pos hs]
    · rw [if_neg hs]
      have hg : opGuardFutureDay fd now = true := by
        unfold opGuardFutureDay
        rw [hfd]
        exact hlt
      rw [if_pos hg]
  · intro iso fd status now ms hs hfd hms hwin
    unfold shouldUseDepartureStandInfo
    rw [if_neg hs]
    have hg : opGuardFutureDay fd now = false := by
      unfold opGuardFutureDay
      cases fd with
      | none => rfl
      | some v => exact hfd v rfl
    rw [if_neg (by simp [hg])]
    show (match iso.parseMs with
      | none => true
      | some ms => decide (ms - now.ms ≤ GATE_INFO_WINDOW_MS)) = true
    rw [hms]
    simp [hwin]

/-- C7 witness: two days out is refused, two hours out with status
"departed" is allowed, "scheduled" status is refused regardless. -/
theorem shouldUseDepartureStandInfo_window_witness :
    shouldUseDepartureStandInfo (some ⟨"2026-03-03", some 1172800000⟩) (some "2026-03-03")
      (some "departed") exNow = false ∧
    shouldUseDepartureStandInfo (some ⟨"2026-03-01", some 1007200000⟩) (some "2026-03-01")
      (some "departed") exNow = true ∧
    shouldUseDepartureStandInfo (some ⟨"2026-03-01", some 1007200000⟩) (some "2026-03-01")
      (some "scheduled") exNow = false := by
  refine ⟨?_, ?_, ?_⟩
  · exact shouldUseDepartureStandInfo_window.2.1 (some ⟨"2026-03-03", some 1172800000⟩)
      (some "2026-03-03") (some "departed") exNow "2026-03-03" rfl (by decide)
  · exact shouldUseDepartureStandInfo_window.2.2 ⟨"2026-03-01", some 1007200000⟩
      (some "2026-03-01") (some "departed") exNow 1007200000 (by decide)
      (by intro v hv; injection hv with hv2; rw [← hv2]; decide) rfl (by decide)
  · exact shouldUseDepartureStandInfo_window.1 (some ⟨"2026-03-01", some 1007200000⟩)
      (some "2026-03-01") (some "scheduled") exNow (by decide)

/-- C10: when the status does not normalize to "scheduled" and the tracked
date is not after today, a missing or unparseable scheduled-departure
timestamp makes `shouldUseDepartureStandInfo` return true — the six-hour
window is only enforced when the timestamp parses. -/
theorem shouldUseDepartureStandInfo_missing_timestamp :
    (∀ (fd : Option String) (status : Option String) (now : NowEnv),
      normalizeFlightStatus status ≠ some "scheduled" →
      (∀ v, fd = some v → jsStrLt now.today v = false) →
      shouldUseDepartureStandInfo none fd status now = true) ∧
    (∀ (iso : IsoString) (fd : Option String) (status : Option String) (now : NowEnv),
      normalizeFlightStatus status ≠ some "scheduled" →
      (∀ v, fd = some v → jsStrLt now.today v = false) →
      iso.parseMs = none →
      shouldUseDepartureStandInfo (some iso) fd status now = true) := by
  constructor
  · intro fd status now hs hfd
    unfold shouldUseDepartureStandInfo
    rw [if_neg hs]
    have hg : opGuardFutureDay fd now = false := by
      unfold opGuardFutureDay
      cases fd with
      | none => rfl
      | some v => exact hfd v rfl
    rw [if_neg (by simp [hg])]
  · intro iso fd status now hs hfd hms
    unfold shouldUseDepartureStandInfo
    rw [if_neg hs]
    have hg : opGuardFutureDay fd now = false := by
      unfold opGuardFutureDay
      cases fd with
      | none => rfl
      | some v => exact hfd v rfl
    rw [if_neg (by simp [hg])]
    show (match iso.parseMs with
      | none => true
      | some ms => decide (ms - now.ms ≤ GATE_INFO_WINDOW_MS)) = true
    rw [hms]

/-- C10 witness: absent and NaN-parsing timestamps at concrete inputs. -/
theorem shouldUseDepartureStandInfo_missing_timestamp_witness :
    shouldUseDepartureStandInfo none (some "2026-03-01") (some "departed") exNow = true ∧
    shouldUseDepartureStandInfo (some ⟨"not-a-date", none⟩) (some "2026-03-01")
      (some "departed") exNow = true := by
  constructor
  · exact shouldUseDepartureStandInfo_missing_timestamp.1 (some "2026-03-01")
      (some "departed") exNow (by decide)
      (by intro v hv; injection hv with hv2; rw [← hv2]; decide)
  · exact shouldUseDepartureStandInfo_missing_timestamp.2 ⟨"not-a-date", none⟩
      (some "2026-03-01") (some "departed") exNow (by decide)
      (by intro v hv; injection hv with hv2; rw [← hv2]; decide) rfl

/-- C6 counterexample: the stored flight code "123AB" does not parse as
carrier plus number and the provider record carries no flight number, so
when the low-signal condition calls for fallback data, FlightStats is
skipped and FlightAware alone is consulted — FlightAware is queried in a
reconciliation run in which FlightStats never is. -/
theorem fallback_order_counterexample :
    (pollFlightCompute exFlight3 exApi3 exEnv1 exNow).consulted =
      [FallbackProvider.flightAware] ∧
    FallbackProvider.flightStats ∉ (pollFlightCompute exFlight3 exApi3 exEnv1 exNow).consulted ∧
    FallbackProvider.flightAware ∈ (pollFlightCompute exFlight3 exApi3 exEnv1 exNow).consulted ∧
    flightNoOf exFlight3 exApi3 = none := by decide

/-- C6 (amended): fallback providers are consulted only when the merged
primary status is low-signal with no positive delay; FlightAware is never
consulted before FlightStats — the consult sequence is one of [],
[FlightStats], [FlightStats, FlightAware], or [FlightAware], the last
only when no FlightStats flight number is available; and FlightAware is
never consulted when FlightStats returned a record whose merge resolved
the low-signal condition. -/
theorem fallback_consultation_policy :
    (∀ (f : StoredFlight) (api : ApiFlight) (env : ProviderEnv) (now : NowEnv),
      shouldUseStatusFallback (next0Of f api now) (getDelayMinutes api) = false →
      (pollFlightCompute f api env now).consulted = []) ∧
    (∀ (f : StoredFlight) (api : ApiFlight) (env : ProviderEnv) (now : NowEnv),
      (pollFlightCompute f api env now).consulted = [] ∨
      (pollFlightCompute f api env now).consulted = [FallbackProvider.flightStats] ∨
      (pollFlightCompute f api env now).consulted =
        [FallbackProvider.flightStats, FallbackProvider.flightAware] ∨
      ((pollFlightCompute f api env now).consulted = [FallbackProvider.flightAware] ∧
        flightNoOf f api = none)) ∧
    (∀ (f : StoredFlight) (api : ApiFlight) (env : ProviderEnv) (now : NowEnv)
      (rec : FallbackRecord), fsResultOf f api env = some rec →
      shouldUseStatusFallback (accAfterFSOf f api env now).status
        (accAfterFSOf f api env now).delay = false →
      FallbackProvider.flightAware ∉ (pollFlightCompute f api env now).consulted) := by
  refine ⟨?_, ?_, ?_⟩
  · intro f api env now h
    exact (pollCompute_consulted_nil_iff f api env now).mpr h
  · exact pollCompute_consulted_cases
  · intro f api env now rec hfs hres
    exact pollCompute_fa_not_consulted hfs hres

/-- C6 witness: the consultation policy evaluated on concrete runs — the
fallback-free run consults nobody, and in the second pass of the
repeated-reconciliation scenario FlightStats answers "cancelled" (which
resolves the low-signal condition), so FlightAware is not consulted. -/
theorem fallback_consultation_policy_witness :
    (pollFlightCompute exFlight2 exApi2 exEnv1 exNow).consulted = [] ∧
    FallbackProvider.flightAware ∉ (pollFlightCompute exPersist1 exApi1 exEnv1 exNow).consulted := by
  constructor
  · exact fallback_consultation_policy.1 exFlight2 exApi2 exEnv1 exNow (by decide)
  · exact fallback_consultation_policy.2.2 exPersist1 exApi1 exEnv1 exNow
      { status := some "cancelled", delayMinutes := none, departureGate := none
        departureTerminal := none } (by decide) (by decide)

/-- C8: `getDelayMinutes` returns the provider's explicit departure delay
when positive; otherwise the rounded (estimated − scheduled) departure
difference in minutes when both timestamps parse and that rounded
difference is positive; in every other case it returns absent; and its
result is never ≤ 0. -/
theorem getDelayMinutes_spec :
    (∀ (api : ApiFlight) (d : Int), api.departure.delay = some d → 0 < d →
      getDelayMinutes api = some d) ∧
    (∀ (api : ApiFlight) (e s : IsoString) (em sm : Int),
      (∀ d, api.departure.delay = some d → d ≤ 0) →
      api.departure.estimated = some e → api.departure.scheduled = some s →
      e.parseMs = some em → s.parseMs = some sm → 0 < jsRoundDiv (em - sm) 60000 →
      getDelayMinutes api = some (jsRoundDiv (em - sm) 60000)) ∧
    (∀ (api : ApiFlight), (∀ d, api.departure.delay = some d → d ≤ 0) →
      (api.departure.estimated = none ∨ api.departure.scheduled = none ∨
        (∃ e, api.departure.estimated = some e ∧ e.parseMs = none) ∨
        (∃ s, api.departure.scheduled = some s ∧ s.parseMs = none) ∨
        (∃ e s em sm, api.departure.estimated = some e ∧ api.departure.scheduled = some s ∧
          e.parseMs = some em ∧ s.parseMs = some sm ∧
          jsRoundDiv (em - sm) 60000 ≤ 0)) →
      getDelayMinutes api = none) ∧
    (∀ (api : ApiFlight) (x : Int), getDelayMinutes api = some x → 0 < x) := by
  have hdelayneg : ∀ (api : ApiFlight), (∀ d, api.departure.delay = some d → d ≤ 0) →
      (match api.departure.delay with
        | some d => decide (0 < d)
        | none => false) = false := by
    intro api hd
    cases hdd : api.departure.delay with
    | none => rfl
    | some d =>
      have := hd d hdd
      simp [this]
  refine ⟨?_, ?_, ?_, ?_⟩
  · intro api d hd hpos
    unfold getDelayMinutes
    rw [if_pos (by rw [hd]; simp [hpos])]
    exact hd
  · intro api e s em sm hd he hs hem hsm hpos
    unfold getDelayMinutes
    rw [if_neg (by rw [hdelayneg api hd]; simp), he, hs]
    show (match e.parseMs, s.parseMs with
      | some e2, some s2 =>
        let diffMinutes := jsRoundDiv (e2 - s2) 60000
        if 0 < diffMinutes then some diffMinutes else none
      | _, _ => none) = some (jsRoundDiv (em - sm) 60000)
    rw [hem, hsm]
    simp [hpos]
  · intro api hd hcase
    unfold getDelayMinutes
    rw [if_neg (by rw [hdelayneg api hd]; simp)]
    rcases hcase with he | hs | ⟨e, he, hep⟩ | ⟨s, hs, hsp⟩ | ⟨e, s, em, sm, he, hs, hem, hsm, hle⟩
    · rw [he]
    · rw [hs]
      cases api.departure.estimated <;> rfl
    · rw [he]
      cases hsch : api.departure.scheduled with
      | none => rfl
      | some s =>
        show (match e.parseMs, s.parseMs with
          | some e2, some s2 =>
            let diffMinutes := jsRoundDiv (e2 - s2) 60000
            if 0 < diffMinutes then some diffMinutes else none
          | _, _ => none) = none
        rw [hep]
    · rw [hs]
      cases hest : api.departure.estimated with
      | none => rfl
      | some e =>
        show (match e.parseMs, s.parseMs with
          | some e2, some s2 =>
            let diffMinutes := jsRoundDiv (e2 - s2) 60000
            if 0 < diffMinutes then some diffMinutes else none
          | _, _ => none) = none
        rw [hsp]
        cases e.parseMs <;> rfl
    · rw [he, hs]
      show (match e.parseMs, s.parseMs with
        | some e2, some s2 =>
          let diffMinutes := jsRoundDiv (e2 - s2) 60000
          if 0 < diffMinutes then some diffMinutes else none
        | _, _ => none) = none
      rw [hem, hsm]
      simp only
      rw [if_neg (by omega)]
  · intro api x h
    unfold getDelayMinutes at h
    by_cases hp : (match api.departure.delay with
        | some d => decide (0 < d)
        | none => false) = true
    · rw [if_pos hp] at h
      cases hdd : api.departure.delay with
      | none => rw [hdd] at hp; simp at hp
      | some d =>
        rw [hdd] at hp h
        injection h with h2
        rw [← h2]
        exact of_decide_eq_true hp
    · rw [if_neg hp] at h
      cases hest : api.departure.estimated with
      | none => rw [hest] at h; exact absurd h (by simp)
      | some e =>
        cases hsch : api.departure.scheduled with
        | none => rw [hest, hsch] at h; exact absurd h (by simp)
        | some s =>
          rw [hest, hsch] at h
          simp only at h
          cases hem : e.parseMs with
          | none => rw [hem] at h; exact absurd h (by simp)
          | some em =>
            cases hsm : s.parseMs with
            | none => rw [hem, hsm] at h; exact absurd h (by simp)
            | some sm =>
              rw [hem, hsm] at h
              simp only at h
              by_cases hpos : 0 < jsRoundDiv (em - sm) 60000
              · rw [if_pos hpos] at h
                injection h with h2
                rw [← h2]
                exact hpos
              · rw [if_neg hpos] at h
                exact absurd h (by simp)

/-- C8 witness: the three delay sources at concrete inputs. -/
theorem getDelayMinutes_spec_witness :
    getDelayMinutes { exApi1 with
      departure := { scheduled := some exDepFuture, estimated := none, delay := some 25
                     gate := none, terminal := none } } = some 25 ∧
    getDelayMinutes { exApi1 with
      departure := { scheduled := some ⟨"2026-03-01", some 1003600000⟩
                     estimated := some ⟨"2026-03-01", some 1004500000⟩, delay := none
                     gate := none, terminal := none } } = some 15 ∧
    getDelayMinutes { exApi1 with
      departure := { scheduled := some ⟨"2026-03-01", some 1003600000⟩
                     estimated := some ⟨"2026-03-01", some 1003600000⟩, delay := some 0
                     gate := none, terminal := none } } = none ∧
    (0 : Int) < 25 := by
  refine ⟨?_, ?_, ?_, ?_⟩
  · exact getDelayMinutes_spec.1 _ 25 rfl (by decide)
  · exact (getDelayMinutes_spec.2.1 _ ⟨"2026-03-01", some 1004500000⟩
      ⟨"2026-03-01", some 1003600000⟩ 1004500000 1003600000
      (by intro d hd; simp at hd) rfl rfl rfl rfl (by decide)).trans
      (by decide)
  · exact getDelayMinutes_spec.2.2.1 _
      (by intro d hd; simp at hd; omega)
      (Or.inr (Or.inr (Or.inr (Or.inr ⟨⟨"2026-03-01", some 1003600000⟩,
        ⟨"2026-03-01", some 1003600000⟩, 1003600000, 1003600000, rfl, rfl, rfl, rfl,
        by decide⟩))))
  · exact getDelayMinutes_spec.2.2.2 { exApi1 with
      departure := { scheduled := some exDepFuture, estimated := none, delay := some 25
                     gate := none, terminal := none } } 25
      (getDelayMinutes_spec.1 _ 25 rfl (by decide))

/-- C9: FlightStats reports `delayMinutes` as the max of the departure
and arrival delay fields when both are present, absent unless positive;
FlightAware reports the maximum over the positive rounded
(estimated − scheduled) differences of its four time pairs, absent when
none is defined; neither ever reports a non-positive delay. -/
theorem fallback_delay_spec :
    (∀ (delays : FlightStatsDelays) (dd da : Int), delays.departure = some dd →
      delays.arrival = some da →
      fsDelayMinutes delays = if 0 < max dd da then some (max dd da) else none) ∧
    (∀ (delays : FlightStatsDelays) (x : Int), fsDelayMinutes delays = some x → 0 < x) ∧
    (∀ (flight : FlightAwareFlightRec) (x : Int), faGetDelayMinutes flight = some x →
      (x ∈ faDelayCandidates flight ∧ ∀ y ∈ faDelayCandidates flight, y ≤ x) ∧ 0 < x) ∧
    (∀ flight : FlightAwareFlightRec, faDelayCandidates flight ≠ [] →
      (faGetDelayMinutes flight).isSome = true) := by
  refine ⟨?_, ?_, ?_, ?_⟩
  · intro delays dd da hdd hda
    unfold fsDelayMinutes
    rw [hdd, hda]
    rfl
  · intro delays x h
    unfold fsDelayMinutes at h
    by_cases hp : 0 < max (delays.departure.getD 0) (delays.arrival.getD 0)
    · rw [if_pos hp] at h
      injection h with h2
      rw [← h2]
      exact hp
    · rw [if_neg hp] at h
      exact absurd h (by simp)
  · intro flight x h
    refine ⟨faGetDelayMinutes_spec flight x h, ?_⟩
    exact faDelayCandidates_pos (faGetDelayMinutes_spec flight x h).1
  · intro flight hne
    unfold faGetDelayMinutes
    cases hc : faDelayCandidates flight with
    | nil => exact absurd hc hne
    | cons hd tl => rfl

/-- C9 witness: both-leg FlightStats records and a FlightAware record with
two defined leg delays, at concrete values. -/
theorem fallback_delay_spec_witness :
    fsDelayMinutes { departure := some 5, arrival := some 12 } = some 12 ∧
    fsDelayMinutes { departure := some (-3), arrival := some (-1) } = none ∧
    (0 : Int) < 12 ∧
    faGetDelayMinutes
      { gateDepartureTimes := some { scheduled := some 1000, estimated := some 1300 }
        takeoffTimes := none
        landingTimes := some { scheduled := some 5000, estimated := some 5900 }
        gateArrivalTimes := none } = some 15 ∧
    (faGetDelayMinutes
      { gateDepartureTimes := some { scheduled := some 1000, estimated := some 1300 }
        takeoffTimes := none
        landingTimes := some { scheduled := some 5000, estimated := some 5900 }
        gateArrivalTimes := none }).isSome = true := by
  refine ⟨?_, ?_, ?_, by decide, ?_⟩
  · exact (fallback_delay_spec.1 { departure := some 5, arrival := some 12 } 5 12
      rfl rfl).trans (by decide)
  · exact (fallback_delay_spec.1 { departure := some (-3), arrival := some (-1) } (-3) (-1)
      rfl rfl).trans (by decide)
  · exact fallback_delay_spec.2.1 { departure := some 5, arrival := some 12 } 12 (by decide)
  · exact fallback_delay_spec.2.2.2
      { gateDepartureTimes := some { scheduled := some 1000, estimated := some 1300 }
        takeoffTimes := none
        landingTimes := some { scheduled := some 5000, estimated := some 5900 }
        gateArrivalTimes := none } (by decide)
